import Mathlib

/-!
Verification of the import pipeline of the apple-health-mcp-server repository.

The Rust source is shallowly embedded: pure functions become Lean functions,
the streaming parsers become explicit step functions folded over a list of
structural events, and the relational sink becomes lists of row structures.
SHA-256 (the `sha2` crate used by `compute_hash` in src/models.rs) is
implemented concretely over `Nat` bytes, so hash values evaluate in the kernel.
-/

namespace AppleHealth

/-! ## SHA-256 (FIPS 180-4), over `Nat` bytes, words reduced mod 2^32 -/

/-- Reduce to a 32-bit word. -/
def w32 (x : Nat) : Nat := x % 4294967296

/-- Modular 32-bit addition. -/
def wadd (a b : Nat) : Nat := w32 (a + b)

/-- Right rotation of a 32-bit word by `n` bits (for `x < 2^32`, `n ≤ 32`). -/
def rotr (n x : Nat) : Nat := x / 2 ^ n + (x % 2 ^ n) * 2 ^ (32 - n)

/-- Logical right shift. -/
def shr (n x : Nat) : Nat := x / 2 ^ n

/-- Bitwise complement of a 32-bit word. -/
def wnot (x : Nat) : Nat := 4294967295 - x

def bigSigma0 (x : Nat) : Nat := Nat.xor (rotr 2 x) (Nat.xor (rotr 13 x) (rotr 22 x))
def bigSigma1 (x : Nat) : Nat := Nat.xor (rotr 6 x) (Nat.xor (rotr 11 x) (rotr 25 x))
def smallSigma0 (x : Nat) : Nat := Nat.xor (rotr 7 x) (Nat.xor (rotr 18 x) (shr 3 x))
def smallSigma1 (x : Nat) : Nat := Nat.xor (rotr 17 x) (Nat.xor (rotr 19 x) (shr 10 x))
def chFn (x y z : Nat) : Nat := Nat.xor (Nat.land x y) (Nat.land (wnot x) z)
def majFn (x y z : Nat) : Nat := Nat.xor (Nat.land x y) (Nat.xor (Nat.land x z) (Nat.land y z))

/-- The 64 SHA-256 round constants. -/
def sha256K : List Nat :=
  [1116352408, 1899447441, 3049323471, 3921009573, 961987163, 1508970993,
   2453635748, 2870763221, 3624381080, 310598401, 607225278, 1426881987,
   1925078388, 2162078206, 2614888103, 3248222580, 3835390401, 4022224774,
   264347078, 604807628, 770255983, 1249150122, 1555081692, 1996064986,
   2554220882, 2821834349, 2952996808, 3210313671, 3336571891, 3584528711,
   113926993, 338241895, 666307205, 773529912, 1294757372, 1396182291,
   1695183700, 1986661051, 2177026350, 2456956037, 2730485921, 2820302411,
   3259730800, 3345764771, 3516065817, 3600352804, 4094571909, 275423344,
   430227734, 506948616, 659060556, 883997877, 958139571, 1322822218,
   1537002063, 1747873779, 1955562222, 2024104815, 2227730452, 2361852424,
   2428436474, 2756734187, 3204031479, 3329325298]

/-- Working state: eight 32-bit words. -/
structure Hash8 where
  a : Nat
  b : Nat
  c : Nat
  d : Nat
  e : Nat
  f : Nat
  g : Nat
  h : Nat
deriving Repr, DecidableEq

/-- Initial SHA-256 hash value. -/
def sha256H0 : Hash8 :=
  ⟨1779033703, 3144134277, 1013904242, 2773480762, 1359893119, 2600822924, 528734635, 1541459225⟩

/-- One compression round with round value `kw` (round constant plus schedule word). -/
def sha256Round (st : Hash8) (kw : Nat) : Hash8 :=
  let t1 := wadd st.h (wadd (bigSigma1 st.e) (wadd (chFn st.e st.f st.g) kw))
  let t2 := wadd (bigSigma0 st.a) (majFn st.a st.b st.c)
  ⟨wadd t1 t2, st.a, st.b, st.c, wadd st.d t1, st.e, st.f, st.g⟩

/-- Big-endian bytes of a number, fixed width `k` bytes. -/
def natToBytesBE : Nat → Nat → List Nat
  | 0, _ => []
  | k + 1, n => natToBytesBE k (n / 256) ++ [n % 256]

/-- Group bytes into big-endian 32-bit words (four bytes per word). -/
def bytesToWords : List Nat → List Nat
  | b0 :: b1 :: b2 :: b3 :: rest =>
      (((b0 * 256 + b1) * 256 + b2) * 256 + b3) :: bytesToWords rest
  | _ => []

/-- Extend a 16-word message schedule to 64 words (`fuel` counts remaining words). -/
def extendSchedule : Nat → Array Nat → Array Nat
  | 0, w => w
  | fuel + 1, w =>
      let i := w.size
      let nw := wadd (smallSigma1 (w.getD (i - 2) 0))
                  (wadd (w.getD (i - 7) 0)
                    (wadd (smallSigma0 (w.getD (i - 15) 0)) (w.getD (i - 16) 0)))
      extendSchedule fuel (w.push nw)

/-- Compress one 64-byte chunk into the running hash state. -/
def sha256Compress (st : Hash8) (chunk : List Nat) : Hash8 :=
  let ws := (extendSchedule 48 (List.toArray (bytesToWords chunk))).toList
  let kws := List.zipWith wadd sha256K ws
  let r := kws.foldl sha256Round st
  ⟨wadd st.a r.a, wadd st.b r.b, wadd st.c r.c, wadd st.d r.d,
   wadd st.e r.e, wadd st.f r.f, wadd st.g r.g, wadd st.h r.h⟩

/-- SHA-256 padding: append 0x80, zeros to 56 mod 64, then the 8-byte bit length. -/
def sha256Pad (msg : List Nat) : List Nat :=
  let z := (119 - msg.length % 64) % 64
  msg ++ 128 :: List.replicate z 0 ++ natToBytesBE 8 (msg.length * 8)

/-- Split a byte list into 64-byte chunks (structural recursion on fuel, which
is initialized to the list length and suffices since every step consumes at
least one element). -/
def chunks64Go : Nat → List Nat → List (List Nat)
  | 0, _ => []
  | _, [] => []
  | fuel + 1, l => l.take 64 :: chunks64Go fuel (l.drop 64)

/-- Split a byte list into 64-byte chunks. -/
def chunks64 (l : List Nat) : List (List Nat) := chunks64Go l.length l

/-- SHA-256 digest of a byte list, as 32 bytes. -/
def sha256 (msg : List Nat) : List Nat :=
  let fin := (chunks64 (sha256Pad msg)).foldl sha256Compress sha256H0
  natToBytesBE 4 fin.a ++ natToBytesBE 4 fin.b ++ natToBytesBE 4 fin.c ++ natToBytesBE 4 fin.d ++
  natToBytesBE 4 fin.e ++ natToBytesBE 4 fin.f ++ natToBytesBE 4 fin.g ++ natToBytesBE 4 fin.h

/-- Lowercase hex digit for a value below 16. -/
def hexDigit (n : Nat) : Char :=
  if n < 10 then Char.ofNat (48 + n) else Char.ofNat (87 + n)

/-- Two lowercase hex digits of one byte. -/
def byteHex (b : Nat) : List Char := [hexDigit (b / 16), hexDigit (b % 16)]

/-- Hex string of a byte list (this models the hex crate's encode). -/
def hexEncode (bs : List Nat) : String := String.mk (bs.flatMap byteHex)

/-- UTF-8 encoding of one character (this models Rust str::as_bytes per char). -/
def utf8EncodeChar (c : Char) : List Nat :=
  let n := c.toNat
  if n < 128 then [n]
  else if n < 2048 then [192 + n / 64, 128 + n % 64]
  else if n < 65536 then [224 + n / 4096, 128 + n / 64 % 64, 128 + n % 64]
  else [240 + n / 262144, 128 + n / 4096 % 64, 128 + n / 64 % 64, 128 + n % 64]

/-- UTF-8 bytes of a character list. -/
def utf8Bytes (cs : List Char) : List Nat := cs.flatMap utf8EncodeChar

/-- The exact character stream fed to the hasher by compute_hash in
src/models.rs: each field is followed by one "|" separator byte
(hasher.update(part); hasher.update(b"|") per part, in order). -/
def hashPreimage (parts : List String) : List Char :=
  parts.foldl (fun acc p => acc ++ p.data ++ ['|']) []

/-- compute_hash from src/models.rs: SHA-256 over the fields, each followed by
a "|" separator, hex encoded. -/
def compute_hash (parts : List String) : String :=
  hexEncode (sha256 (utf8Bytes (hashPreimage parts)))

/-! ## String helpers

The Rust code works on byte indices of UTF-8 strings; all timestamp and header
strings handled by the pipeline are ASCII, so the embedding works on character
lists, where byte positions and character positions coincide. -/

/-- Check that `pat` occurs in `s` starting at position `i`. -/
def subAt (s pat : List Char) (i : Nat) : Bool :=
  decide ((s.drop i).take pat.length = pat)

/-- Position of the last occurrence of `pat` in `s` (Rust str::rfind). -/
def findLastSub (s pat : List Char) : Option Nat :=
  ((List.range (s.length + 1)).filter (fun i => subAt s pat i)).getLast?

/-- clean_date from src/import/xml.rs: drop everything from the last " +" or,
failing that, the last " -" onward; otherwise return the input unchanged. -/
def clean_date (s : String) : String :=
  match findLastSub s.data [' ', '+'] with
  | some pos => String.mk (s.data.take pos)
  | none =>
    match findLastSub s.data [' ', '-'] with
    | some pos => String.mk (s.data.take pos)
    | none => s

/-- clean_date_opt from src/import/xml.rs. -/
def clean_date_opt (s : Option String) : Option String := s.map clean_date

/-- ASCII whitespace test (Rust str::trim uses Unicode whitespace; the inputs
here are ASCII). -/
def isWs (c : Char) : Bool := c = ' ' ∨ c = '\t' ∨ c = '\n' ∨ c = '\r'

/-- Trim whitespace from both ends of a character list. -/
def trimChars (s : List Char) : List Char :=
  ((s.dropWhile isWs).reverse.dropWhile isWs).reverse

/-- Trim whitespace from both ends of a string. -/
def trimStr (s : String) : String := String.mk (trimChars s.data)

/-- clean_timestamp from src/import/gpx.rs: trim, strip one trailing "Z",
strip a trailing 6-character "+HH:MM" or "-HH:MM" offset, and replace "T"
with a space. -/
def clean_timestamp (ts : String) : String :=
  let s := trimChars ts.data
  let s := if s.getLast? = some 'Z' then s.dropLast else s
  let s :=
    if 6 < s.length then
      let tail := s.drop (s.length - 6)
      if (tail.head? = some '+' ∨ tail.head? = some '-') ∧ ':' ∈ tail then
        s.take (s.length - 6)
      else s
    else s
  String.mk (s.map (fun c => if c = 'T' then ' ' else c))

/-! ## Rust f64 parsing

parse_opt_f64 and the other numeric fields use Rust str::parse::<f64>().ok().
No claim depends on floating-point arithmetic, only on whether parsing
succeeds, so the embedding keeps the accepted numeral's source text and models
acceptance by the f64 grammar of Rust core (optional sign, then "inf",
"infinity" or "nan" case-insensitively, or a decimal mantissa with at least
one digit and an optional exponent). -/

def isDigitCh (c : Char) : Bool := '0' ≤ c ∧ c ≤ '9'

/-- Drop one leading sign character. -/
def dropSign : List Char → List Char
  | '+' :: r => r
  | '-' :: r => r
  | l => l

/-- Accept an optional exponent part and end of input. -/
def expTailOk (l : List Char) : Bool :=
  match l with
  | [] => true
  | 'e' :: r =>
    let r := dropSign r
    let d := r.takeWhile isDigitCh
    decide (d ≠ []) && decide (r.dropWhile isDigitCh = [])
  | _ => false

/-- Accept a decimal mantissa (with at least one digit) plus optional exponent. -/
def mantissaOk (l : List Char) : Bool :=
  let d1 := l.takeWhile isDigitCh
  let r1 := l.dropWhile isDigitCh
  if d1 = [] then
    match r1 with
    | '.' :: r2 =>
      let d2 := r2.takeWhile isDigitCh
      decide (d2 ≠ []) && expTailOk (r2.dropWhile isDigitCh)
    | _ => false
  else
    match r1 with
    | [] => true
    | '.' :: r2 => expTailOk (r2.dropWhile isDigitCh)
    | _ => expTailOk r1

/-- Acceptance by the Rust f64 grammar (input already lowercased). -/
def f64CoreOk (cs : List Char) : Bool :=
  let b := dropSign cs
  b = ['i', 'n', 'f'] || b = ['i', 'n', 'f', 'i', 'n', 'i', 't', 'y'] ||
    b = ['n', 'a', 'n'] || mantissaOk b

/-- Whether Rust str::parse::<f64>() accepts the string. -/
def f64Parses (s : String) : Bool := f64CoreOk (s.data.map Char.toLower)

/-- parse_opt_f64 from src/import/xml.rs, with the accepted numeral kept as
text (see the section comment). -/
def parse_opt_f64 (s : Option String) : Option String :=
  s.bind (fun v => if f64Parses v then some v else none)

/-! ## Structural events

The quick_xml pull parser yields Start, Empty, End and Text events (other
event kinds, and per-element parse errors, are ignored by every loop in the
source, so they are collapsed into one constructor). Element names carry the
name as matched by the source (xml.rs matches the full name, gpx.rs the
namespace-local name). -/

inductive XEvent where
  | start (name : String) (attrs : List (String × String))
  | empty (name : String) (attrs : List (String × String))
  | stop (name : String)
  | text (s : String)
  | other
deriving Repr, DecidableEq

/-- attr_value from src/import/xml.rs (and attr_val from src/import/mod.rs):
value of the first attribute with the given name. -/
def attr_value (attrs : List (String × String)) (name : String) : Option String :=
  (attrs.find? (fun a => a.1 = name)).map (fun a => a.2)

/-! ## Row types (src/import/xml.rs struct definitions; numeric fields hold
the accepted numeral text, see the f64 section comment) -/

structure RecordRow where
  record_hash : String
  record_type : String
  value : Option String
  unit : Option String
  source_name : String
  source_version : Option String
  device : Option String
  creation_date : Option String
  start_date : String
  end_date : String
  (import_id : String)
deriving Repr, DecidableEq

structure MetadataRow where
  record_hash : String
  key : String
  value : String
deriving Repr, DecidableEq

structure WorkoutRow where
  workout_hash : String
  activity_type : String
  duration : Option String
  duration_unit : Option String
  total_distance : Option String
  total_distance_unit : Option String
  total_energy_burned : Option String
  total_energy_unit : Option String
  source_name : String
  source_version : Option String
  device : Option String
  creation_date : Option String
  start_date : String
  end_date : String
  (import_id : String)
deriving Repr, DecidableEq

structure WorkoutEventRow where
  workout_hash : String
  event_type : String
  date : Option String
  duration : Option String
  duration_unit : Option String
deriving Repr, DecidableEq

structure WorkoutStatRow where
  workout_hash : String
  stat_type : String
  start_date : Option String
  end_date : Option String
  average : Option String
  minimum : Option String
  maximum : Option String
  sum : Option String
  unit : Option String
deriving Repr, DecidableEq

structure ActivityRow where
  date_components : String
  active_energy_burned : Option String
  active_energy_burned_goal : Option String
  apple_move_time : Option String
  apple_move_time_goal : Option String
  apple_exercise_time : Option String
  apple_exercise_time_goal : Option String
  apple_stand_hours : Option String
  apple_stand_hours_goal : Option String
  (import_id : String)
deriving Repr, DecidableEq

/-! ## The import_xml streaming state machine (src/import/xml.rs)

Each table is modelled as a flushed part plus a pending batch; a flush moves
the batch onto the end of the flushed part, exactly like the DuckDB appender
receives batch rows in order. -/

def BATCH_SIZE : Nat := 100000

structure XState where
  record_batch : List RecordRow
  records : List RecordRow
  metadata_batch : List MetadataRow
  record_metadata : List MetadataRow
  workout_batch : List WorkoutRow
  workouts : List WorkoutRow
  workout_event_batch : List WorkoutEventRow
  workout_events : List WorkoutEventRow
  workout_stat_batch : List WorkoutStatRow
  workout_statistics : List WorkoutStatRow
  activity_batch : List ActivityRow
  activity_summaries : List ActivityRow
  in_workout : Bool
  current_workout : Option WorkoutRow
  current_workout_events : List WorkoutEventRow
  current_workout_stats : List WorkoutStatRow
  in_record : Bool
  current_record_hash : Option String
  in_correlation : Bool
deriving Repr, DecidableEq

def initXState : XState :=
  ⟨[], [], [], [], [], [], [], [], [], [], [], [],
   false, none, [], [], false, none, false⟩

/-- Append a record row to the batch, flushing when the threshold is reached. -/
def pushRecord (st : XState) (r : RecordRow) : XState :=
  let b := st.record_batch ++ [r]
  if BATCH_SIZE ≤ b.length then
    { st with record_batch := [], records := st.records ++ b }
  else { st with record_batch := b }

def pushMetadata (st : XState) (m : MetadataRow) : XState :=
  let b := st.metadata_batch ++ [m]
  if BATCH_SIZE ≤ b.length then
    { st with metadata_batch := [], record_metadata := st.record_metadata ++ b }
  else { st with metadata_batch := b }

def pushActivity (st : XState) (a : ActivityRow) : XState :=
  let b := st.activity_batch ++ [a]
  if BATCH_SIZE ≤ b.length then
    { st with activity_batch := [], activity_summaries := st.activity_summaries ++ b }
  else { st with activity_batch := b }

/-- The Record open arm (matched only when not inside a correlation). -/
def recordOpen (import_id : String) (st : XState) (attrs : List (String × String)) : XState :=
  let record_type := (attr_value attrs "type").getD ""
  let source_name := (attr_value attrs "sourceName").getD ""
  let start_date := clean_date ((attr_value attrs "startDate").getD "")
  let end_date := clean_date ((attr_value attrs "endDate").getD "")
  let value_str := attr_value attrs "value"
  let unit := attr_value attrs "unit"
  let value := parse_opt_f64 value_str
  let hash := compute_hash [record_type, source_name, start_date, end_date,
    value_str.getD "", unit.getD ""]
  let row : RecordRow :=
    ⟨hash, record_type, value, unit, source_name, attr_value attrs "sourceVersion",
     attr_value attrs "device", clean_date_opt (attr_value attrs "creationDate"),
     start_date, end_date, import_id⟩
  let st := pushRecord st row
  { st with in_record := true, current_record_hash := some hash }

/-- The MetadataEntry open arm. -/
def metadataOpen (st : XState) (attrs : List (String × String)) : XState :=
  let key := (attr_value attrs "key").getD ""
  let value := (attr_value attrs "value").getD ""
  if st.in_workout then st
  else if st.in_record then
    match st.current_record_hash with
    | some hash => pushMetadata st ⟨hash, key, value⟩
    | none => st
  else st

/-- The Workout open arm. -/
def workoutOpen (import_id : String) (st : XState) (attrs : List (String × String)) : XState :=
  let activity_type := (attr_value attrs "workoutActivityType").getD ""
  let source_name := (attr_value attrs "sourceName").getD ""
  let start_date := clean_date ((attr_value attrs "startDate").getD "")
  let end_date := clean_date ((attr_value attrs "endDate").getD "")
  let duration_str := attr_value attrs "duration"
  let hash := compute_hash [activity_type, source_name, start_date, end_date,
    duration_str.getD ""]
  let row : WorkoutRow :=
    ⟨hash, activity_type, parse_opt_f64 duration_str, attr_value attrs "durationUnit",
     parse_opt_f64 (attr_value attrs "totalDistance"), attr_value attrs "totalDistanceUnit",
     parse_opt_f64 (attr_value attrs "totalEnergyBurned"), attr_value attrs "totalEnergyBurnedUnit",
     source_name, attr_value attrs "sourceVersion", attr_value attrs "device",
     clean_date_opt (attr_value attrs "creationDate"), start_date, end_date, import_id⟩
  { st with in_workout := true, current_workout := some row,
            current_workout_events := [], current_workout_stats := [] }

/-- The WorkoutEvent open arm (matched only while in a workout). -/
def workoutEventOpen (st : XState) (attrs : List (String × String)) : XState :=
  match st.current_workout with
  | some w =>
    { st with current_workout_events := st.current_workout_events ++
        [⟨w.workout_hash, (attr_value attrs "type").getD "",
          clean_date_opt (attr_value attrs "date"),
          parse_opt_f64 (attr_value attrs "duration"),
          attr_value attrs "durationUnit"⟩] }
  | none => st

/-- The WorkoutStatistics open arm (matched only while in a workout). -/
def workoutStatOpen (st : XState) (attrs : List (String × String)) : XState :=
  match st.current_workout with
  | some w =>
    { st with current_workout_stats := st.current_workout_stats ++
        [⟨w.workout_hash, (attr_value attrs "type").getD "",
          clean_date_opt (attr_value attrs "startDate"),
          clean_date_opt (attr_value attrs "endDate"),
          parse_opt_f64 (attr_value attrs "average"),
          parse_opt_f64 (attr_value attrs "minimum"),
          parse_opt_f64 (attr_value attrs "maximum"),
          parse_opt_f64 (attr_value attrs "sum"),
          attr_value attrs "unit"⟩] }
  | none => st

/-- The ActivitySummary open arm. -/
def activityOpen (import_id : String) (st : XState) (attrs : List (String × String)) : XState :=
  pushActivity st
    ⟨(attr_value attrs "dateComponents").getD "",
     parse_opt_f64 (attr_value attrs "activeEnergyBurned"),
     parse_opt_f64 (attr_value attrs "activeEnergyBurnedGoal"),
     parse_opt_f64 (attr_value attrs "appleMoveTime"),
     parse_opt_f64 (attr_value attrs "appleMoveTimeGoal"),
     parse_opt_f64 (attr_value attrs "appleExerciseTime"),
     parse_opt_f64 (attr_value attrs "appleExerciseTimeGoal"),
     parse_opt_f64 (attr_value attrs "appleStandHours"),
     parse_opt_f64 (attr_value attrs "appleStandHoursGoal"),
     import_id⟩

/-- Dispatch for a Start or Empty event (the source matches both identically). -/
def xmlOpen (import_id : String) (st : XState) (name : String)
    (attrs : List (String × String)) : XState :=
  if name = "Record" ∧ ¬st.in_correlation then recordOpen import_id st attrs
  else if name = "MetadataEntry" then metadataOpen st attrs
  else if name = "Workout" then workoutOpen import_id st attrs
  else if name = "WorkoutEvent" ∧ st.in_workout then workoutEventOpen st attrs
  else if name = "WorkoutStatistics" ∧ st.in_workout then workoutStatOpen st attrs
  else if name = "ActivitySummary" then activityOpen import_id st attrs
  else if name = "Correlation" then { st with in_correlation := true }
  else st

/-- The Workout close arm: commit the pending workout with its pending events
and statistics, then check the flush thresholds (once, as in the source). -/
def workoutClose (st : XState) : XState :=
  let st :=
    match st.current_workout with
    | some w =>
      let st := { st with
        workout_batch := st.workout_batch ++ [w],
        workout_event_batch := st.workout_event_batch ++ st.current_workout_events,
        workout_stat_batch := st.workout_stat_batch ++ st.current_workout_stats,
        current_workout := none, current_workout_events := [], current_workout_stats := [] }
      let st := if BATCH_SIZE ≤ st.workout_batch.length then
          { st with workout_batch := [], workouts := st.workouts ++ st.workout_batch }
        else st
      let st := if BATCH_SIZE ≤ st.workout_event_batch.length then
          { st with workout_event_batch := [],
                    workout_events := st.workout_events ++ st.workout_event_batch }
        else st
      if BATCH_SIZE ≤ st.workout_stat_batch.length then
        { st with workout_stat_batch := [],
                  workout_statistics := st.workout_statistics ++ st.workout_stat_batch }
      else st
    | none => st
  { st with in_workout := false }

/-- Dispatch for an End event. -/
def xmlClose (st : XState) (name : String) : XState :=
  if name = "Record" then { st with in_record := false, current_record_hash := none }
  else if name = "Workout" then workoutClose st
  else if name = "Correlation" then { st with in_correlation := false }
  else st

/-- One iteration of the import_xml event loop. -/
def xmlStep (import_id : String) (st : XState) (e : XEvent) : XState :=
  match e with
  | .start name attrs => xmlOpen import_id st name attrs
  | .empty name attrs => xmlOpen import_id st name attrs
  | .stop name => xmlClose st name
  | .text _ => st
  | .other => st

/-- The unconditional flush of every remaining batch at end of input. -/
def finishXml (st : XState) : XState :=
  { st with
    record_batch := [], records := st.records ++ st.record_batch,
    metadata_batch := [], record_metadata := st.record_metadata ++ st.metadata_batch,
    workout_batch := [], workouts := st.workouts ++ st.workout_batch,
    workout_event_batch := [], workout_events := st.workout_events ++ st.workout_event_batch,
    workout_stat_batch := [], workout_statistics := st.workout_statistics ++ st.workout_stat_batch,
    activity_batch := [], activity_summaries := st.activity_summaries ++ st.activity_batch }

/-- import_xml from src/import/xml.rs: fold the event loop over the document,
then flush all batches. -/
def import_xml (import_id : String) (doc : List XEvent) : XState :=
  finishXml (doc.foldl (xmlStep import_id) initXState)

/-! ## The route reference resolver (build_workout_route_map, src/import/mod.rs)

The resolver recomputes a workout hash on each Workout open. Note that it
hashes the raw startDate and endDate attribute values, without clean_date. -/

structure MapState where
  in_workout : Bool
  current_workout_hash : Option String
  map : List (String × String)
deriving Repr, DecidableEq

/-- HashMap::insert semantics on an association list: replace the value of an
existing key, else append the new entry. -/
def mapInsert (m : List (String × String)) (k v : String) : List (String × String) :=
  if m.any (fun p => p.1 = k) then m.map (fun p => if p.1 = k then (k, v) else p)
  else m ++ [(k, v)]

/-- One iteration of the build_workout_route_map event loop. -/
def mapStep (st : MapState) (e : XEvent) : MapState :=
  match e with
  | .start name attrs | .empty name attrs =>
    if name = "Workout" then
      let activity_type := (attr_value attrs "workoutActivityType").getD ""
      let source_name := (attr_value attrs "sourceName").getD ""
      let start_date := (attr_value attrs "startDate").getD ""
      let end_date := (attr_value attrs "endDate").getD ""
      let duration_str := attr_value attrs "duration"
      let hash := compute_hash [activity_type, source_name, start_date, end_date,
        duration_str.getD ""]
      { st with in_workout := true, current_workout_hash := some hash }
    else if name = "FileReference" ∧ st.in_workout then
      match st.current_workout_hash, attr_value attrs "path" with
      | some wh, some path => { st with map := mapInsert st.map path wh }
      | _, _ => st
    else st
  | .stop name =>
    if name = "Workout" then { st with in_workout := false, current_workout_hash := none }
    else st
  | _ => st

/-- build_workout_route_map from src/import/mod.rs. -/
def build_workout_route_map (doc : List XEvent) : List (String × String) :=
  (doc.foldl mapStep ⟨false, none, []⟩).map

/-! ## The GPS track parser (import_single_gpx, src/import/gpx.rs) -/

structure RoutePointRow where
  point_hash : String
  workout_hash : Option String
  latitude : String
  longitude : String
  elevation : Option String
  timestamp : String
  speed : Option String
  course : Option String
  h_accuracy : Option String
  v_accuracy : Option String
  (import_id : String)
deriving Repr, DecidableEq

structure GpxState where
  in_trkpt : Bool
  lat : Option String
  lon : Option String
  ele : Option String
  timestamp : Option String
  speed : Option String
  course : Option String
  h_accuracy : Option String
  v_accuracy : Option String
  current_tag : Option String
  rows : List RoutePointRow
deriving Repr, DecidableEq

def initGpxState : GpxState := ⟨false, none, none, none, none, none, none, none, none, none, []⟩

/-- One iteration of the import_single_gpx event loop. The workout hash of the
stored row is the one resolved for the whole file (or none); the point hash
uses the raw time text while the stored timestamp is cleaned, as in the
source. The source hashes the shortest round-trip rendering of the parsed
doubles; this embedding keeps the accepted numeral text (see the f64 section
comment). Only Start events open elements here (gpx.rs matches Start, not
Empty), and current_tag is cleared on every End event. -/
def gpxStep (import_id : String) (workout_hash : Option String)
    (st : GpxState) (e : XEvent) : GpxState :=
  match e with
  | .start name attrs =>
    if name = "trkpt" then
      { st with
        in_trkpt := true,
        lat := parse_opt_f64 (attr_value attrs "lat"),
        lon := parse_opt_f64 (attr_value attrs "lon"),
        ele := none, timestamp := none, speed := none, course := none,
        h_accuracy := none, v_accuracy := none }
    else if (name = "ele" ∨ name = "time" ∨ name = "speed" ∨ name = "course" ∨
             name = "hAcc" ∨ name = "vAcc") ∧ st.in_trkpt then
      { st with current_tag := some name }
    else st
  | .text t =>
    if st.in_trkpt then
      match st.current_tag with
      | some "ele" => { st with ele := parse_opt_f64 (some t) }
      | some "time" => { st with timestamp := some t }
      | some "speed" => { st with speed := parse_opt_f64 (some t) }
      | some "course" => { st with course := parse_opt_f64 (some t) }
      | some "hAcc" => { st with h_accuracy := parse_opt_f64 (some t) }
      | some "vAcc" => { st with v_accuracy := parse_opt_f64 (some t) }
      | _ => st
    else st
  | .stop name =>
    let st :=
      if name = "trkpt" ∧ st.in_trkpt then
        match st.lat, st.lon, st.timestamp with
        | some lat_v, some lon_v, some ts =>
          let wh := workout_hash.getD ""
          let point_hash := compute_hash [wh, ts, lat_v, lon_v]
          let clean_ts := clean_timestamp ts
          { st with
            in_trkpt := false,
            rows := st.rows ++ [⟨point_hash, workout_hash, lat_v, lon_v, st.ele,
              clean_ts, st.speed, st.course, st.h_accuracy, st.v_accuracy, import_id⟩] }
        | _, _, _ => { st with in_trkpt := false }
      else st
    { st with current_tag := none }
  | _ => st

/-- import_single_gpx from src/import/gpx.rs: the appended route point rows. -/
def import_single_gpx (import_id : String) (workout_hash : Option String)
    (doc : List XEvent) : List RoutePointRow :=
  (doc.foldl (gpxStep import_id workout_hash) initGpxState).rows

/-- The rows one GPX event appends: one row on a trackpoint close with
latitude, longitude and timestamp all present, nothing otherwise. -/
def gpxEmit (import_id : String) (workout_hash : Option String)
    (st : GpxState) (e : XEvent) : List RoutePointRow :=
  match e with
  | .stop name =>
    if name = "trkpt" ∧ st.in_trkpt then
      match st.lat, st.lon, st.timestamp with
      | some lat_v, some lon_v, some ts =>
        [⟨compute_hash [workout_hash.getD "", ts, lat_v, lon_v], workout_hash, lat_v, lon_v,
          st.ele, clean_timestamp ts, st.speed, st.course, st.h_accuracy, st.v_accuracy,
          import_id⟩]
      | _, _, _ => []
    else []
  | _ => []

/-- The scratch part of a GPX parser state (everything except the rows). -/
def stripRows (s : GpxState) : GpxState := { s with rows := [] }

/-! ## The ECG sidecar parser (import_single_ecg, src/import/ecg.rs) -/

structure EcgReadingRow where
  ecg_hash : String
  recorded_date : String
  classification : Option String
  device : Option String
  sample_rate_hz : Option String
  symptoms : Option String
  software_version : Option String
  (import_id : String)
deriving Repr, DecidableEq

structure EcgSampleRow where
  ecg_hash : String
  sample_idx : Nat
  voltage_uv : String
deriving Repr, DecidableEq

/-- Accumulated header fields of one ECG file. -/
structure EcgHeader where
  recorded_date : String
  classification : Option String
  device : Option String
  sample_rate_hz : Option String
  symptoms : Option String
  software_version : Option String
deriving Repr, DecidableEq

/-- Test whether the character list starts with the given pattern. -/
def startsWithL (s pat : List Char) : Bool := decide (s.take pat.length = pat)

/-- Test whether a string starts with a pattern (Rust str::starts_with). -/
def strStarts (s pat : String) : Bool := startsWithL s.data pat.data

/-- Drop a known leading pattern (Rust strip-then-unwrap-or-empty idiom). -/
def dropPat (s : String) (pat : String) : String := String.mk (s.data.drop pat.data.length)

/-- The timezone strip applied to the Recorded Date header value; the source
duplicates the logic of clean_date verbatim, so it is reused here. -/
def ecgStripTz (raw : String) : String := clean_date raw

/-- The first whitespace-separated token of a string (split_whitespace().next()). -/
def firstToken (s : String) : Option String :=
  let t := (s.data.dropWhile isWs).takeWhile (fun c => ¬isWs c)
  if t = [] then none else some (String.mk t)

/-- The ECG header loop: one line at a time, in the source's check order,
stopping at the first line that matches no known header key. -/
def parseEcgHeader : List String → EcgHeader → EcgHeader
  | [], acc => acc
  | l :: rest, acc =>
    let line := trimStr l
    if line = "" then parseEcgHeader rest acc
    else if strStarts line "Name," then parseEcgHeader rest acc
    else if strStarts line "Date of Birth," then parseEcgHeader rest acc
    else if strStarts line "Recorded Date," then
      parseEcgHeader rest { acc with recorded_date := ecgStripTz (dropPat line "Recorded Date,") }
    else if strStarts line "Classification," then
      parseEcgHeader rest { acc with classification := some (dropPat line "Classification,") }
    else if strStarts line "Symptoms," then
      let s := dropPat line "Symptoms,"
      if s = "" then parseEcgHeader rest acc
      else parseEcgHeader rest { acc with symptoms := some s }
    else if strStarts line "Software Version," then
      parseEcgHeader rest { acc with software_version := some (dropPat line "Software Version,") }
    else if strStarts line "Device," then
      let d := dropPat line "Device,"
      let d := String.mk (((d.data.dropWhile (fun c => c = '"')).reverse.dropWhile
        (fun c => c = '"')).reverse)
      parseEcgHeader rest { acc with device := some d }
    else if strStarts line "Sample Rate," then
      let sr := (firstToken (dropPat line "Sample Rate,")).bind
        (fun t => if f64Parses t then some t else none)
      parseEcgHeader rest { acc with sample_rate_hz := sr }
    else if strStarts line "Lead," then parseEcgHeader rest acc
    else if strStarts line "Unit," then parseEcgHeader rest acc
    else acc

/-- The ECG sample loop: every line that parses as a bare float is a sample at
the next zero-based index; the first non-float line after at least one sample
ends the section (blank lines are skipped throughout). -/
def collectSamples (ecg_hash : String) : List String → Bool → Nat → List EcgSampleRow
  | [], _, _ => []
  | l :: rest, in_data, idx =>
    let line := trimStr l
    if line = "" then collectSamples ecg_hash rest in_data idx
    else if f64Parses line then
      ⟨ecg_hash, idx, line⟩ :: collectSamples ecg_hash rest true (idx + 1)
    else if in_data then []
    else collectSamples ecg_hash rest in_data idx

/-- import_single_ecg from src/import/ecg.rs: none models the bail-out on a
missing Recorded Date header (the directory driver then skips the file). -/
def import_single_ecg (import_id : String) (lines : List String) :
    Option (EcgReadingRow × List EcgSampleRow) :=
  let h := parseEcgHeader lines ⟨"", none, none, none, none, none⟩
  if h.recorded_date = "" then none
  else
    let ecg_hash := compute_hash [h.recorded_date, h.device.getD ""]
    some (⟨ecg_hash, h.recorded_date, h.classification, h.device, h.sample_rate_hz,
           h.symptoms, h.software_version, import_id⟩,
          collectSamples ecg_hash lines false 0)

/-! ## Schema (ensure_schema, src/db.rs): table names with their columns -/

/-- The tables and columns created by ensure_schema in src/db.rs. -/
def ensure_schema : List (String × List String) :=
  [("records", ["record_hash", "record_type", "value", "unit", "source_name",
      "source_version", "device", "creation_date", "start_date", "end_date", "import_id"]),
   ("record_metadata", ["record_hash", "key", "value"]),
   ("workouts", ["workout_hash", "activity_type", "duration", "duration_unit",
      "total_distance", "total_distance_unit", "total_energy_burned", "total_energy_unit",
      "source_name", "source_version", "device", "creation_date", "start_date",
      "end_date", "import_id"]),
   ("workout_events", ["workout_hash", "event_type", "date", "duration", "duration_unit"]),
   ("workout_statistics", ["workout_hash", "stat_type", "start_date", "end_date",
      "average", "minimum", "maximum", "sum", "unit"]),
   ("activity_summaries", ["date_components", "active_energy_burned",
      "active_energy_burned_goal", "apple_move_time", "apple_move_time_goal",
      "apple_exercise_time", "apple_exercise_time_goal", "apple_stand_hours",
      "apple_stand_hours_goal", "import_id"]),
   ("ecg_readings", ["ecg_hash", "recorded_date", "classification", "device",
      "sample_rate_hz", "symptoms", "software_version", "import_id"]),
   ("ecg_samples", ["ecg_hash", "sample_idx", "voltage_uv"]),
   ("route_points", ["point_hash", "workout_hash", "latitude", "longitude", "elevation",
      "timestamp", "speed", "course", "h_accuracy", "v_accuracy", "import_id"]),
   ("imports", ["import_id", "export_dir", "imported_at", "record_count",
      "workout_count", "duration_secs"])]

/-- Columns of a table of the schema. -/
def tableColumns (name : String) : List String :=
  ((ensure_schema.find? (fun t => t.1 = name)).map (fun t => t.2)).getD []

/-! ## Deduplication (deduplicate_tables, src/db.rs)

DuckDB's SELECT DISTINCT ON (k) keeps, for each distinct key, the first row
in the selection order; with no ORDER BY the surviving row is arbitrary,
modelled as first-in-table-order. -/

/-- Keep the first row for each key not seen yet. -/
def distinctOnGo {α κ : Type} [DecidableEq κ] (key : α → κ) (seen : List κ) :
    List α → List α
  | [] => []
  | x :: xs =>
    if key x ∈ seen then distinctOnGo key seen xs
    else x :: distinctOnGo key (key x :: seen) xs

/-- Keep the first row per distinct key. -/
def distinctOn {α κ : Type} [DecidableEq κ] (key : α → κ) (l : List α) : List α :=
  distinctOnGo key [] l

/-- Lexicographic strict order on character lists (DuckDB compares VARCHAR
values with the default binary collation; the strings compared here are
ASCII, where character order and byte order agree). -/
def lexLt : List Char → List Char → Prop
  | _, [] => False
  | [], _ :: _ => True
  | a :: as, b :: bs => a < b ∨ (a = b ∧ lexLt as bs)

def lexLt.dec : (x y : List Char) → Decidable (lexLt x y)
  | x, [] => isFalse (by cases x <;> simp [lexLt])
  | [], _ :: _ => isTrue (by simp [lexLt])
  | a :: as, b :: bs =>
    have : Decidable (lexLt as bs) := lexLt.dec as bs
    decidable_of_iff (a < b ∨ (a = b ∧ lexLt as bs)) (by simp [lexLt])

instance : ∀ x y, Decidable (lexLt x y) := lexLt.dec

/-- Strict lexicographic order on strings. -/
def strLt (a b : String) : Prop := lexLt a.data b.data

/-- Reflexive lexicographic order on strings. -/
def strLe (a b : String) : Prop := strLt a b ∨ a = b

instance : DecidableRel strLt := fun a b => lexLt.dec a.data b.data

instance : DecidableRel strLe := fun a b => by
  unfold strLe
  infer_instance

/-- The ORDER BY date_components, import_id DESC used for the
activity_summaries deduplication: dates ascending, and inside one date the
run identifiers descending, so DISTINCT ON keeps the row with the largest
run identifier per date. -/
def actOrder (a b : ActivityRow) : Prop :=
  strLt a.date_components b.date_components ∨
    (a.date_components = b.date_components ∧ strLe b.import_id a.import_id)

instance : DecidableRel actOrder := fun a b => by
  unfold actOrder
  infer_instance

/-- The row multiset of every table written by the parser passes (the imports
run-metadata table is written by run_import after deduplication and is not a
parser output). -/
structure Tables where
  records : List RecordRow
  record_metadata : List MetadataRow
  workouts : List WorkoutRow
  workout_events : List WorkoutEventRow
  workout_statistics : List WorkoutStatRow
  activity_summaries : List ActivityRow
  ecg_readings : List EcgReadingRow
  ecg_samples : List EcgSampleRow
  route_points : List RoutePointRow
deriving Repr, DecidableEq

def emptyTables : Tables := ⟨[], [], [], [], [], [], [], [], []⟩

/-- deduplicate_tables from src/db.rs. The workout_events and
workout_statistics tables appear in no CREATE OR REPLACE statement there and
pass through unchanged. -/
def deduplicate_tables (t : Tables) : Tables :=
  { records := distinctOn (fun r => r.record_hash) t.records,
    record_metadata := distinctOn (fun m => (m.record_hash, m.key)) t.record_metadata,
    workouts := distinctOn (fun w => w.workout_hash) t.workouts,
    workout_events := t.workout_events,
    workout_statistics := t.workout_statistics,
    activity_summaries := distinctOn (fun a => a.date_components)
      (List.insertionSort actOrder t.activity_summaries),
    ecg_readings := distinctOn (fun r => r.ecg_hash) t.ecg_readings,
    ecg_samples := distinctOn (fun s => (s.ecg_hash, s.sample_idx)) t.ecg_samples,
    route_points := distinctOn (fun p => p.point_hash) t.route_points }

/-! ## The import orchestration (run_import, src/import/mod.rs)

One export bundle: the primary document's event stream, the ECG files (line
lists) and the GPX files (file name with event stream), each file list in the
sorted directory order of the drivers. -/

structure Bundle where
  xml : List XEvent
  ecgFiles : List (List String)
  gpxFiles : List (String × List XEvent)

/-- The per-file step of the ECG directory driver: a file whose import fails
is skipped, otherwise its reading and samples are appended. -/
def ecgStep (import_id : String) (acc : List EcgReadingRow × List EcgSampleRow)
    (f : List String) : List EcgReadingRow × List EcgSampleRow :=
  match import_single_ecg import_id f with
  | some (r, ss) => (acc.1 ++ [r], acc.2 ++ ss)
  | none => acc

/-- The per-file step of the GPX directory driver: resolve the workout through
the route map under the "/workout-routes/" prefix of the file name, then
append the file's points. -/
def gpxFileStep (import_id : String) (routeMap : List (String × String))
    (acc : List RoutePointRow) (f : String × List XEvent) : List RoutePointRow :=
  let wh := (routeMap.find? (fun p => p.1 = "/workout-routes/" ++ f.1)).map (fun p => p.2)
  acc ++ import_single_gpx import_id wh f.2

/-- The append phases of one import run (phases 1 to 3 of run_import): parse
the primary document, the ECG directory and the GPX directory, appending all
produced rows to the existing tables. -/
def appendRun (t : Tables) (import_id : String) (b : Bundle) : Tables :=
  let xs := import_xml import_id b.xml
  let routeMap := build_workout_route_map b.xml
  let ecgOut := b.ecgFiles.foldl (ecgStep import_id) ([], [])
  let gpxOut := b.gpxFiles.foldl (gpxFileStep import_id routeMap) []
  { records := t.records ++ xs.records,
    record_metadata := t.record_metadata ++ xs.record_metadata,
    workouts := t.workouts ++ xs.workouts,
    workout_events := t.workout_events ++ xs.workout_events,
    workout_statistics := t.workout_statistics ++ xs.workout_statistics,
    activity_summaries := t.activity_summaries ++ xs.activity_summaries,
    ecg_readings := t.ecg_readings ++ ecgOut.1,
    ecg_samples := t.ecg_samples ++ ecgOut.2,
    route_points := t.route_points ++ gpxOut }

/-! ## Retagging: the same parse with a different import run identifier

Rows differ between two runs over the same input only in their import_id
column; retagging makes that exact. -/

def RecordRow.retag (i : String) (r : RecordRow) : RecordRow := { r with import_id := i }

def WorkoutRow.retag (i : String) (w : WorkoutRow) : WorkoutRow := { w with import_id := i }

def ActivityRow.retag (i : String) (a : ActivityRow) : ActivityRow := { a with import_id := i }

def EcgReadingRow.retag (i : String) (r : EcgReadingRow) : EcgReadingRow := { r with import_id := i }

def RoutePointRow.retag (i : String) (p : RoutePointRow) : RoutePointRow := { p with import_id := i }

/-- Retag every row of a parser state (metadata, workout events, workout
statistics carry no import identifier). -/
def retagX (i : String) (s : XState) : XState :=
  { s with
    record_batch := s.record_batch.map (RecordRow.retag i),
    records := s.records.map (RecordRow.retag i),
    workout_batch := s.workout_batch.map (WorkoutRow.retag i),
    workouts := s.workouts.map (WorkoutRow.retag i),
    activity_batch := s.activity_batch.map (ActivityRow.retag i),
    activity_summaries := s.activity_summaries.map (ActivityRow.retag i),
    current_workout := s.current_workout.map (WorkoutRow.retag i) }

/-- Retag every row of a GPX parser state. -/
def retagG (i : String) (s : GpxState) : GpxState :=
  { s with rows := s.rows.map (RoutePointRow.retag i) }

/-- Retag every row of the table set (ecg samples, metadata, workout events
and statistics carry no import identifier). -/
def retagT (i : String) (t : Tables) : Tables :=
  { t with
    records := t.records.map (RecordRow.retag i),
    workouts := t.workouts.map (WorkoutRow.retag i),
    activity_summaries := t.activity_summaries.map (ActivityRow.retag i),
    ecg_readings := t.ecg_readings.map (EcgReadingRow.retag i),
    route_points := t.route_points.map (RoutePointRow.retag i) }

/-- Pointwise concatenation of table sets (the sink accumulates appended
rows across runs). -/
def joinTables (t u : Tables) : Tables :=
  ⟨t.records ++ u.records, t.record_metadata ++ u.record_metadata,
   t.workouts ++ u.workouts, t.workout_events ++ u.workout_events,
   t.workout_statistics ++ u.workout_statistics,
   t.activity_summaries ++ u.activity_summaries,
   t.ecg_readings ++ u.ecg_readings, t.ecg_samples ++ u.ecg_samples,
   t.route_points ++ u.route_points⟩

/-! ## Reference functions and relations used by the claim statements -/

/-- Reference count of top-level Record opens: a fold that tracks only the
correlation flag and counts Record elements seen while the flag is clear. -/
def tlrCount : Bool → List XEvent → Nat
  | _, [] => 0
  | c, e :: rest =>
    match e with
    | .start n _ =>
      if n = "Correlation" then tlrCount true rest
      else if n = "Record" ∧ ¬c then 1 + tlrCount c rest
      else tlrCount c rest
    | .empty n _ =>
      if n = "Correlation" then tlrCount true rest
      else if n = "Record" ∧ ¬c then 1 + tlrCount c rest
      else tlrCount c rest
    | .stop n => if n = "Correlation" then tlrCount false rest else tlrCount c rest
    | _ => tlrCount c rest

/-- Workout event rows committed to the sink so far (flushed plus batched;
pending rows of a still-open workout are not included). -/
def emittedEvents (s : XState) : List WorkoutEventRow := s.workout_events ++ s.workout_event_batch

/-- Workout statistic rows committed to the sink so far. -/
def emittedStats (s : XState) : List WorkoutStatRow := s.workout_statistics ++ s.workout_stat_batch

/-- Workout rows committed to the sink so far. -/
def emittedWorkouts (s : XState) : List WorkoutRow := s.workouts ++ s.workout_batch

/-- Two ECG lines that are either identical or both carry the same
privacy-sensitive header key (with possibly different values). -/
def privacyTwinB (a b : String) : Bool :=
  a == b ||
    (strStarts (trimStr a) "Name," && strStarts (trimStr b) "Name,") ||
    (strStarts (trimStr a) "Date of Birth," && strStarts (trimStr b) "Date of Birth,")

/-- Two ECG files that differ only in privacy-sensitive header values. -/
def privacyTwinLines : List String → List String → Bool
  | [], [] => true
  | a :: as, b :: bs => privacyTwinB a b && privacyTwinLines as bs
  | _, _ => false

/-! ## Concrete fixtures used by witnesses and counterexamples -/

/-- A document with one workout containing one event and one statistic. -/
def wkDoc : List XEvent :=
  [.start "Workout" [("workoutActivityType", "Run"), ("sourceName", "W"),
     ("startDate", "2024-01-01 10:00:00"), ("endDate", "2024-01-01 10:30:00"),
     ("duration", "30.5")],
   .empty "WorkoutEvent" [("type", "Lap")],
   .empty "WorkoutStatistics" [("type", "HR"), ("average", "150")],
   .stop "Workout"]

/-- A bundle with only the workout document. -/
def wkBundle : Bundle := ⟨wkDoc, [], []⟩

/-- A workout with a route file reference whose dates carry the timezone
suffix that every real export uses. -/
def routeDoc : List XEvent :=
  [.start "Workout" [("workoutActivityType", "Run"), ("sourceName", "W"),
     ("startDate", "2024-01-01 10:00:00 +0000"), ("endDate", "2024-01-01 10:30:00 +0000"),
     ("duration", "30.5")],
   .empty "FileReference" [("path", "/workout-routes/r.gpx")],
   .stop "Workout"]

/-- Two activity summary rows for the same date from two import runs. -/
def actRowA : ActivityRow :=
  ⟨"2024-01-01", none, none, none, none, none, none, none, none, "import_20240101_000000"⟩

def actRowB : ActivityRow :=
  ⟨"2024-01-01", some "9", none, none, none, none, none, none, none, "import_20240202_000000"⟩

def actTables : Tables :=
  { emptyTables with activity_summaries := [actRowA, actRowB] }

/-- A document whose workout closes normally (used as the d1 part in the
truncation scenario). -/
def closedPart : List XEvent :=
  [.start "Workout" [("workoutActivityType", "Run"), ("sourceName", "W"),
     ("startDate", "2024-01-01 10:00:00"), ("endDate", "2024-01-01 10:30:00"),
     ("duration", "30.5")],
   .empty "WorkoutEvent" [("type", "Lap")],
   .stop "Workout"]

/-- Events following a workout open whose close is never reached. -/
def truncatedTail : List XEvent :=
  [.empty "WorkoutEvent" [("type", "Pause")],
   .empty "WorkoutStatistics" [("type", "HR"), ("average", "151")]]

/-- A GPX scratch state with latitude, longitude and timestamp all present. -/
def gpxStFull : GpxState :=
  ⟨true, some "1.5", some "2.5", none, some "2024-01-01T00:00:00Z",
   none, none, none, none, none, []⟩

/-- A GPX scratch state with the latitude missing. -/
def gpxStNoLat : GpxState :=
  ⟨true, none, some "2.5", none, some "2024-01-01T00:00:00Z",
   none, none, none, none, none, []⟩

/-- A document with one activity summary (its row computes no hash). -/
def actDoc : List XEvent := [.empty "ActivitySummary" [("dateComponents", "2024-01-01")]]

/-- An ECG file with a personal name, a birth date and two samples. -/
def ecgFileA : List String :=
  ["Name,Alice Example", "Date of Birth,1990-01-01",
   "Recorded Date,2024-06-15 10:30:00 +0000", "Classification,Sinus Rhythm",
   "Device,\"Watch\"", "Sample Rate,512 Hz", "", "100", "-50"]

/-- The same ECG file with a different name and birth date. -/
def ecgFileB : List String :=
  ["Name,Bob Other", "Date of Birth,1985-12-31",
   "Recorded Date,2024-06-15 10:30:00 +0000", "Classification,Sinus Rhythm",
   "Device,\"Watch\"", "Sample Rate,512 Hz", "", "100", "-50"]

/-! ## Helper lemmas about the lexicographic order -/

theorem lexLt_trichotomy : ∀ x y : List Char, lexLt x y ∨ lexLt y x ∨ x = y := by
  intro x
  induction x with
  | nil =>
    intro y
    cases y <;> simp [lexLt]
  | cons c cs ih =>
    intro y
    cases y with
    | nil => simp [lexLt]
    | cons d ds =>
      rcases lt_trichotomy c d with h | h | h
      · exact Or.inl (Or.inl h)
      · rcases ih ds with h2 | h2 | h2
        · exact Or.inl (Or.inr ⟨h, h2⟩)
        · exact Or.inr (Or.inl (Or.inr ⟨h.symm, h2⟩))
        · subst h
          subst h2
          exact Or.inr (Or.inr rfl)
      · exact Or.inr (Or.inl (Or.inl h))

theorem lexLt_irrefl : ∀ x : List Char, ¬lexLt x x := by
  intro x
  induction x with
  | nil => simp [lexLt]
  | cons c cs ih =>
    intro h
    rcases h with h | ⟨-, h⟩
    · exact lt_irrefl c h
    · exact ih h

theorem lexLt_trans : ∀ x y z : List Char, lexLt x y → lexLt y z → lexLt x z := by
  intro x
  induction x with
  | nil =>
    intro y z hxy hyz
    cases z with
    | nil => cases y <;> simp [lexLt] at hxy hyz
    | cons c cs => simp [lexLt]
  | cons a as ih =>
    intro y z hxy hyz
    cases y with
    | nil => simp [lexLt] at hxy
    | cons b bs =>
      cases z with
      | nil => simp [lexLt] at hyz
      | cons c cs =>
        rcases hxy with h1 | ⟨rfl, h1⟩
        · rcases hyz with h2 | ⟨rfl, h2⟩
          · exact Or.inl (h1.trans h2)
          · exact Or.inl h1
        · rcases hyz with h2 | ⟨rfl, h2⟩
          · exact Or.inl h2
          · exact Or.inr ⟨rfl, ih bs cs h1 h2⟩

theorem strLt_irrefl (a : String) : ¬strLt a a := lexLt_irrefl a.data

theorem string_eq_of_data_eq {a b : String} (h : a.data = b.data) : a = b := by
  cases a
  cases b
  exact congrArg String.mk h

instance : IsTotal ActivityRow actOrder :=
  ⟨fun a b => by
    unfold actOrder strLe
    rcases lexLt_trichotomy a.date_components.data b.date_components.data with h | h | h
    · exact Or.inl (Or.inl h)
    · exact Or.inr (Or.inl h)
    · have he : a.date_components = b.date_components := string_eq_of_data_eq h
      rcases lexLt_trichotomy b.import_id.data a.import_id.data with h2 | h2 | h2
      · exact Or.inl (Or.inr ⟨he, Or.inl h2⟩)
      · exact Or.inr (Or.inr ⟨he.symm, Or.inl h2⟩)
      · exact Or.inl (Or.inr ⟨he, Or.inr (string_eq_of_data_eq h2)⟩)⟩

instance : IsTrans ActivityRow actOrder :=
  ⟨fun a b c hab hbc => by
    unfold actOrder strLe strLt at hab hbc ⊢
    rcases hab with h1 | ⟨e1, i1⟩
    · rcases hbc with h2 | ⟨e2, i2⟩
      · exact Or.inl (lexLt_trans _ _ _ h1 h2)
      · exact Or.inl (by rw [← e2]; exact h1)
    · rcases hbc with h2 | ⟨e2, i2⟩
      · exact Or.inl (by rw [e1]; exact h2)
      · refine Or.inr ⟨e1.trans e2, ?_⟩
        rcases i2 with h3 | h3
        · rcases i1 with h4 | h4
          · exact Or.inl (lexLt_trans _ _ _ h3 h4)
          · exact Or.inl (by rw [← h4]; exact h3)
        · rw [h3]
          exact i1⟩

/-! ## Helper lemmas about distinctOn -/

section DistinctOn

variable {α κ : Type} [DecidableEq κ] (key : α → κ)

/-- The keys seen after scanning a list. -/
def seenAfter (seen : List κ) : List α → List κ
  | [] => seen
  | x :: xs =>
    if key x ∈ seen then seenAfter seen xs
    else seenAfter (key x :: seen) xs

theorem mem_seenAfter {seen : List κ} {l : List α} {k : κ} :
    k ∈ seenAfter key seen l ↔ k ∈ seen ∨ k ∈ l.map key := by
  induction l generalizing seen with
  | nil => simp [seenAfter]
  | cons x xs ih =>
    by_cases h : key x ∈ seen
    · simp only [seenAfter, if_pos h, ih, List.map_cons, List.mem_cons]
      constructor
      · rintro (hs | hm)
        · exact Or.inl hs
        · exact Or.inr (Or.inr hm)
      · rintro (hs | rfl | hm)
        · exact Or.inl hs
        · exact Or.inl h
        · exact Or.inr hm
    · simp only [seenAfter, if_neg h, ih, List.map_cons, List.mem_cons]
      tauto

theorem distinctOnGo_append (seen : List κ) (l1 l2 : List α) :
    distinctOnGo key seen (l1 ++ l2)
      = distinctOnGo key seen l1 ++ distinctOnGo key (seenAfter key seen l1) l2 := by
  induction l1 generalizing seen with
  | nil => simp [distinctOnGo, seenAfter]
  | cons x xs ih =>
    by_cases h : key x ∈ seen
    · simp [distinctOnGo, seenAfter, if_pos h, ih]
    · simp [distinctOnGo, seenAfter, if_neg h, ih]

theorem distinctOnGo_eq_nil {seen : List κ} {l : List α}
    (h : ∀ x ∈ l, key x ∈ seen) : distinctOnGo key seen l = [] := by
  induction l with
  | nil => rfl
  | cons x xs ih =>
    have hx : key x ∈ seen := h x (List.mem_cons_self x xs)
    simp only [distinctOnGo, if_pos hx]
    exact ih (fun y hy => h y (List.mem_cons_of_mem x hy))

/-- Appending rows whose keys already occur does not change the result. -/
theorem distinctOn_append_of_subset {l1 l2 : List α}
    (h : ∀ x ∈ l2, key x ∈ l1.map key) :
    distinctOn key (l1 ++ l2) = distinctOn key l1 := by
  unfold distinctOn
  rw [distinctOnGo_append]
  have h2 : distinctOnGo key (seenAfter key [] l1) l2 = [] :=
    distinctOnGo_eq_nil key (fun x hx => (mem_seenAfter key).mpr (Or.inr (h x hx)))
  rw [h2, List.append_nil]

/-- Every kept row occurs in the input after only rows with other keys. -/
theorem distinctOnGo_mem_split {seen : List κ} {l : List α} {x : α}
    (h : x ∈ distinctOnGo key seen l) :
    key x ∉ seen ∧ ∃ l1 l2, l = l1 ++ x :: l2 ∧ ∀ y ∈ l1, key y ≠ key x := by
  induction l generalizing seen with
  | nil => simp [distinctOnGo] at h
  | cons a xs ih =>
    by_cases ha : key a ∈ seen
    · rw [distinctOnGo, if_pos ha] at h
      obtain ⟨hns, l1, l2, rfl, hkey⟩ := ih h
      refine ⟨hns, a :: l1, l2, rfl, ?_⟩
      intro y hy
      rcases List.mem_cons.mp hy with rfl | hy
      · exact fun hk => hns (hk ▸ ha)
      · exact hkey y hy
    · rw [distinctOnGo, if_neg ha] at h
      rcases List.mem_cons.mp h with rfl | h
      · exact ⟨ha, [], xs, rfl, by simp⟩
      · obtain ⟨hns, l1, l2, rfl, hkey⟩ := ih h
        have hne : key x ≠ key a := fun hk => hns (by simp [hk])
        refine ⟨fun hk => hns (by simp [hk]), a :: l1, l2, rfl, ?_⟩
        intro y hy
        rcases List.mem_cons.mp hy with rfl | hy
        · exact fun hk => hne hk.symm
        · exact hkey y hy

theorem distinctOnGo_subset {seen : List κ} {l : List α} {x : α}
    (h : x ∈ distinctOnGo key seen l) : x ∈ l := by
  obtain ⟨-, l1, l2, rfl, -⟩ := distinctOnGo_mem_split key h
  simp

theorem distinctOnGo_keys_nodup (seen : List κ) (l : List α) :
    ((distinctOnGo key seen l).map key).Nodup
      ∧ ∀ x ∈ distinctOnGo key seen l, key x ∉ seen := by
  induction l generalizing seen with
  | nil => simp [distinctOnGo]
  | cons a xs ih =>
    by_cases ha : key a ∈ seen
    · simpa [distinctOnGo, if_pos ha] using ih seen
    · obtain ⟨hnd, hseen⟩ := ih (key a :: seen)
      simp only [distinctOnGo, if_neg ha, List.map_cons, List.nodup_cons]
      refine ⟨⟨?_, hnd⟩, ?_⟩
      · intro hmem
        obtain ⟨y, hy, hyk⟩ := List.mem_map.mp hmem
        exact hseen y hy (by simp [hyk])
      · intro x hx
        rcases List.mem_cons.mp hx with rfl | hx
        · exact ha
        · intro hmem
          exact hseen x hx (List.mem_cons_of_mem _ hmem)

theorem distinctOnGo_keys_mem {seen : List κ} {l : List α} {k : κ} :
    k ∈ (distinctOnGo key seen l).map key ↔ k ∉ seen ∧ k ∈ l.map key := by
  induction l generalizing seen with
  | nil => simp [distinctOnGo]
  | cons a xs ih =>
    by_cases ha : key a ∈ seen
    · rw [distinctOnGo, if_pos ha, ih]
      simp only [List.map_cons, List.mem_cons]
      constructor
      · rintro ⟨hns, hm⟩
        exact ⟨hns, Or.inr hm⟩
      · rintro ⟨hns, rfl | hm⟩
        · exact absurd ha hns
        · exact ⟨hns, hm⟩
    · rw [distinctOnGo, if_neg ha]
      simp only [List.map_cons, List.mem_cons, ih]
      constructor
      · rintro (rfl | ⟨hns, hm⟩)
        · exact ⟨ha, Or.inl rfl⟩
        · refine ⟨fun hs => hns (Or.inr hs), Or.inr hm⟩
      · rintro ⟨hns, rfl | hm⟩
        · exact Or.inl rfl
        · by_cases hk : k = key a
          · exact Or.inl hk
          · refine Or.inr ⟨fun hs => ?_, hm⟩
            rcases hs with h1 | h1
            · exact hk h1
            · exact hns h1

/-- The number of kept rows is the number of distinct keys. -/
theorem distinctOnGo_length (seen : List κ) (l : List α) :
    (distinctOnGo key seen l).length = ((l.map key).toFinset \ seen.toFinset).card := by
  induction l generalizing seen with
  | nil => simp [distinctOnGo]
  | cons a xs ih =>
    by_cases ha : key a ∈ seen
    · rw [distinctOnGo, if_pos ha, ih]
      congr 1
      simp only [List.map_cons, List.toFinset_cons]
      exact (Finset.insert_sdiff_of_mem _ (by simpa using ha)).symm
    · rw [distinctOnGo, if_neg ha, List.length_cons, ih]
      simp only [List.map_cons, List.toFinset_cons]
      rw [Finset.sdiff_insert, Finset.insert_sdiff_of_not_mem _ (by simpa using ha)]
      set t := (xs.map key).toFinset \ seen.toFinset with ht
      by_cases hm : key a ∈ t
      · rw [Finset.insert_eq_self.mpr hm]
        have := Finset.card_erase_add_one hm
        omega
      · rw [Finset.card_insert_of_not_mem hm, Finset.erase_eq_of_not_mem hm]

theorem distinctOn_length (l : List α) :
    (distinctOn key l).length = (l.map key).toFinset.card := by
  unfold distinctOn
  rw [distinctOnGo_length]
  simp

end DistinctOn

/-! ## Lemmas about compute_hash -/

theorem length_natToBytesBE (k n : Nat) : (natToBytesBE k n).length = k := by
  induction k generalizing n with
  | zero => rfl
  | succ k ih => simp [natToBytesBE, ih]

theorem length_sha256 (msg : List Nat) : (sha256 msg).length = 32 := by
  simp [sha256, length_natToBytesBE]

theorem length_byteHexFlat (bs : List Nat) : (bs.flatMap byteHex).length = 2 * bs.length := by
  induction bs with
  | nil => rfl
  | cons b bs ih =>
    simp only [List.flatMap_cons, List.length_append, ih, byteHex, List.length_cons,
      List.length_nil, List.length_map]
    omega

theorem length_compute_hash (parts : List String) : (compute_hash parts).length = 64 := by
  show (String.mk _).length = 64
  show (List.length _) = 64
  rw [length_byteHexFlat, length_sha256]

theorem hashPreimage_foldl (l : List String) (a : List Char) :
    l.foldl (fun acc p => acc ++ p.data ++ ['|']) a = a ++ hashPreimage l := by
  induction l generalizing a with
  | nil => simp [hashPreimage]
  | cons p l ih =>
    rw [hashPreimage, List.foldl_cons, List.foldl_cons, ih, ih]
    simp

theorem hashPreimage_cons (p : String) (l : List String) :
    hashPreimage (p :: l) = p.data ++ '|' :: hashPreimage l := by
  rw [hashPreimage, List.foldl_cons, hashPreimage_foldl]
  simp

/-- Splitting at the first separator is unambiguous for separator-free fields. -/
theorem sep_split {x y r1 r2 : List Char} (hx : '|' ∉ x) (hy : '|' ∉ y)
    (h : x ++ '|' :: r1 = y ++ '|' :: r2) : x = y ∧ r1 = r2 := by
  induction x generalizing y with
  | nil =>
    cases y with
    | nil => simpa using h
    | cons d ys =>
      simp only [List.nil_append, List.cons_append, List.cons.injEq] at h
      exact absurd (by simp [← h.1]) hy
  | cons c xs ih =>
    cases y with
    | nil =>
      simp only [List.nil_append, List.cons_append, List.cons.injEq] at h
      exact absurd (by simp [h.1]) hx
    | cons d ys =>
      simp only [List.cons_append, List.cons.injEq] at h
      obtain ⟨rfl, h2⟩ := h
      have hx' : '|' ∉ xs := fun m => hx (List.mem_cons_of_mem _ m)
      have hy' : '|' ∉ ys := fun m => hy (List.mem_cons_of_mem _ m)
      obtain ⟨he, hr⟩ := ih hx' hy' h2
      exact ⟨by rw [he], hr⟩

/-- For separator-free fields the hasher input determines the field list. -/
theorem hashPreimage_inj {p1 p2 : List String}
    (h1 : ∀ f ∈ p1, '|' ∉ f.data) (h2 : ∀ f ∈ p2, '|' ∉ f.data)
    (h : hashPreimage p1 = hashPreimage p2) : p1 = p2 := by
  induction p1 generalizing p2 with
  | nil =>
    cases p2 with
    | nil => rfl
    | cons q qs =>
      rw [hashPreimage_cons] at h
      exact absurd h.symm (by simp [hashPreimage])
  | cons p ps ih =>
    cases p2 with
    | nil =>
      rw [hashPreimage_cons] at h
      exact absurd h (by simp [hashPreimage])
    | cons q qs =>
      rw [hashPreimage_cons, hashPreimage_cons] at h
      have hp : '|' ∉ p.data := h1 p (List.mem_cons_self p ps)
      have hq : '|' ∉ q.data := h2 q (List.mem_cons_self q qs)
      obtain ⟨hd, ht⟩ := sep_split hp hq h
      have hps : p = q := by
        cases p; cases q
        exact congrArg String.mk hd
      have : ps = qs :=
        ih (fun f hf => h1 f (List.mem_cons_of_mem _ hf))
          (fun f hf => h2 f (List.mem_cons_of_mem _ hf)) ht
      rw [hps, this]

/-- C3 (counterexample): two different field lists, one of them strictly
shorter, that feed byte-identical input to the hasher and therefore collide:
compute_hash joins fields with a trailing "|" per field, so a field list
containing empty strings can collide with a shorter list whose field contains
the separator. -/
theorem compute_hash_separator_collision :
    compute_hash ["", ""] = compute_hash ["|"] ∧ (["", ""] : List String) ≠ ["|"] :=
  ⟨congrArg (fun l => hexEncode (sha256 (utf8Bytes l)))
    (by decide : hashPreimage ["", ""] = hashPreimage ["|"]), by decide⟩

/-- C3 (amended): compute_hash always yields a 64-character (hex) output, in
particular a defined non-empty output on zero fields, and on field lists that
do not contain the separator byte the hasher input is injective in the field
list (content and order), so distinct such inputs collide only through a
SHA-256 collision. Identity of outputs on identical inputs is definitional
(compute_hash is a pure function). For fields containing the separator the
encoding is ambiguous, as the counterexample shows. -/
theorem compute_hash_contract :
    (∀ parts : List String, (compute_hash parts).length = 64)
    ∧ compute_hash [] ≠ ""
    ∧ (∀ p1 p2 : List String, (∀ f ∈ p1, '|' ∉ f.data) → (∀ f ∈ p2, '|' ∉ f.data) →
        p1 ≠ p2 → hashPreimage p1 ≠ hashPreimage p2) := by
  refine ⟨length_compute_hash, ?_, ?_⟩
  · intro h
    have := length_compute_hash []
    rw [h] at this
    simp at this
  · intro p1 p2 h1 h2 hne h
    exact hne (hashPreimage_inj h1 h2 h)

theorem compute_hash_contract_witness :
    (∀ f ∈ (["a"] : List String), '|' ∉ f.data)
    ∧ (∀ f ∈ (["b"] : List String), '|' ∉ f.data)
    ∧ (["a"] : List String) ≠ ["b"]
    ∧ hashPreimage ["a"] ≠ hashPreimage ["b"] :=
  ⟨by decide, by decide, by decide,
   compute_hash_contract.2.2 ["a"] ["b"] (by decide) (by decide) (by decide)⟩

/-! ## Timestamp canonicalization: claim C4 -/

/-- C4 (counterexample): clean_date, the primary parser's canonicalization,
does not strip a literal Z (it only strips from a last " +" or " -" on), so
the first listed example does not canonicalize to "2020-06-20 16:56:44" in
the primary parser. -/
theorem clean_date_z_not_stripped :
    clean_date "2020-06-20T16:56:44Z" = "2020-06-20T16:56:44Z"
    ∧ clean_date "2020-06-20T16:56:44Z" ≠ "2020-06-20 16:56:44" := by
  constructor
  · decide
  · decide

/-- C4 (amended): the GPX parser's clean_timestamp sends all four example
forms to "2020-06-20 16:56:44" and leaves the canonical form unchanged; the
primary parser's clean_date strips only a trailing " +..." or " -..." suffix
(never a literal Z, and it never rewrites the "T" separator), leaves the
canonical form unchanged, and returns any string without " +" or " -"
occurrences unchanged (idempotence on canonical timestamps). -/
theorem timestamp_canonicalization :
    clean_timestamp "2020-06-20T16:56:44Z" = "2020-06-20 16:56:44"
    ∧ clean_timestamp "2020-06-20T16:56:44+00:00" = "2020-06-20 16:56:44"
    ∧ clean_timestamp "2020-06-20T16:56:44-05:00" = "2020-06-20 16:56:44"
    ∧ clean_timestamp "2020-06-20T16:56:44" = "2020-06-20 16:56:44"
    ∧ clean_timestamp "2020-06-20 16:56:44" = "2020-06-20 16:56:44"
    ∧ clean_date "2020-06-20 16:56:44 +0000" = "2020-06-20 16:56:44"
    ∧ clean_date "2020-06-20 16:56:44 -0500" = "2020-06-20 16:56:44"
    ∧ clean_date "2020-06-20 16:56:44" = "2020-06-20 16:56:44"
    ∧ clean_date "2020-06-20T16:56:44" = "2020-06-20T16:56:44"
    ∧ (∀ s : String, findLastSub s.data [' ', '+'] = none →
        findLastSub s.data [' ', '-'] = none → clean_date s = s) := by
  refine ⟨by decide, by decide, by decide, by decide, by decide, by decide, by decide,
    by decide, by decide, ?_⟩
  intro s hp hm
  unfold clean_date
  rw [hp, hm]

theorem timestamp_canonicalization_witness :
    findLastSub "2020-06-20 16:56:44".data [' ', '+'] = none
    ∧ findLastSub "2020-06-20 16:56:44".data [' ', '-'] = none
    ∧ clean_date "2020-06-20 16:56:44" = "2020-06-20 16:56:44" :=
  ⟨by decide, by decide,
   timestamp_canonicalization.2.2.2.2.2.2.2.2.2 "2020-06-20 16:56:44" (by decide) (by decide)⟩

/-! ## The route reference resolver: claim C2 -/

/-- C2: the resolver (build_workout_route_map) hashes the raw startDate and
endDate attribute values while the primary parser (import_xml) hashes them
after clean_date; on a workout whose dates carry the usual " +0000" suffix
the recomputed identity differs from the stored one, so the route map entry
names an identity that the parser never stored. -/
theorem route_map_identity_mismatch :
    build_workout_route_map routeDoc =
      [("/workout-routes/r.gpx",
        compute_hash ["Run", "W", "2024-01-01 10:00:00 +0000",
          "2024-01-01 10:30:00 +0000", "30.5"])]
    ∧ (import_xml "imp" routeDoc).workouts.map (fun w => w.workout_hash) =
        [compute_hash ["Run", "W", "2024-01-01 10:00:00", "2024-01-01 10:30:00", "30.5"]]
    ∧ compute_hash ["Run", "W", "2024-01-01 10:00:00 +0000",
        "2024-01-01 10:30:00 +0000", "30.5"]
        ≠ compute_hash ["Run", "W", "2024-01-01 10:00:00", "2024-01-01 10:30:00", "30.5"] := by
  set_option maxRecDepth 10000 in
  refine ⟨by decide, by decide, by decide⟩

/-! ## Activity summary deduplication: claim C5 -/

/-- C5: after deduplication the activity_summaries table has exactly one row
per date value: the surviving dates are distinct, they cover exactly the
input dates, every surviving row is an input row, and a surviving row has
the largest import_id among all input rows of its date. Import run
identifiers are time-derived fixed-width strings
(import_YYYYMMDD_HHMMSS), so the largest identifier belongs to the most
recently created run. -/
theorem activity_dedup_latest_wins (t : Tables) :
    ((deduplicate_tables t).activity_summaries.map (fun a => a.date_components)).Nodup
    ∧ (∀ a ∈ t.activity_summaries, ∃ b ∈ (deduplicate_tables t).activity_summaries,
        b.date_components = a.date_components)
    ∧ (∀ b ∈ (deduplicate_tables t).activity_summaries, b ∈ t.activity_summaries)
    ∧ (∀ b ∈ (deduplicate_tables t).activity_summaries, ∀ a ∈ t.activity_summaries,
        a.date_components = b.date_components → strLe a.import_id b.import_id) := by
  have hperm := List.perm_insertionSort actOrder t.activity_summaries
  have hsort := List.sorted_insertionSort actOrder t.activity_summaries
  set l := List.insertionSort actOrder t.activity_summaries with hl
  have hout : (deduplicate_tables t).activity_summaries
      = distinctOnGo (fun a => a.date_components) [] l := rfl
  refine ⟨?_, ?_, ?_, ?_⟩
  · rw [hout]
    exact (distinctOnGo_keys_nodup _ [] l).1
  · intro a ha
    have hmem : a.date_components ∈ l.map (fun a => a.date_components) :=
      List.mem_map_of_mem _ (hperm.mem_iff.mpr ha)
    have hk : a.date_components
        ∈ (distinctOnGo (fun a => a.date_components) [] l).map (fun a => a.date_components) :=
      (distinctOnGo_keys_mem _).mpr ⟨by simp, hmem⟩
    obtain ⟨b, hb, hbk⟩ := List.mem_map.mp hk
    exact ⟨b, by rw [hout]; exact hb, hbk⟩
  · intro b hb
    rw [hout] at hb
    exact hperm.mem_iff.mp (distinctOnGo_subset _ hb)
  · intro b hb a ha hdate
    rw [hout] at hb
    obtain ⟨-, l1, l2, hsplit, hkeys⟩ := distinctOnGo_mem_split _ hb
    have hal : a ∈ l := hperm.mem_iff.mpr ha
    rw [hsplit] at hal hsort
    rcases List.mem_append.mp hal with h1 | h2
    · exact absurd hdate (hkeys a h1)
    · rcases List.mem_cons.mp h2 with rfl | h2
      · exact Or.inr rfl
      · have hpw : List.Pairwise actOrder (b :: l2) := (List.pairwise_append.mp hsort).2.1
        have hrel : actOrder b a := (List.pairwise_cons.mp hpw).1 a h2
        rcases hrel with hlt | ⟨-, hle⟩
        · rw [hdate] at hlt
          exact absurd hlt (strLt_irrefl _)
        · exact hle

theorem activity_dedup_latest_wins_witness :
    actRowB ∈ (deduplicate_tables actTables).activity_summaries
    ∧ actRowA ∈ actTables.activity_summaries
    ∧ actRowA.date_components = actRowB.date_components
    ∧ strLe actRowA.import_id actRowB.import_id :=
  ⟨by decide, by decide, by decide,
   (activity_dedup_latest_wins actTables).2.2.2 actRowB (by decide) actRowA (by decide)
     (by decide)⟩

/-! ## Correlation children are not double counted: claim C6 -/

/-! Dispatch equations for the import_xml match arms. -/

theorem xmlOpen_record (i : String) (s : XState) (attrs : List (String × String))
    (h : ¬s.in_correlation = true) :
    xmlOpen i s "Record" attrs = recordOpen i s attrs := by
  simp [xmlOpen, h]

theorem xmlOpen_record_in_corr (i : String) (s : XState) (attrs : List (String × String))
    (h : s.in_correlation = true) :
    xmlOpen i s "Record" attrs = s := by
  simp [xmlOpen, h]

theorem xmlOpen_metadata (i : String) (s : XState) (attrs : List (String × String)) :
    xmlOpen i s "MetadataEntry" attrs = metadataOpen s attrs := by
  simp [xmlOpen]

theorem xmlOpen_workout (i : String) (s : XState) (attrs : List (String × String)) :
    xmlOpen i s "Workout" attrs = workoutOpen i s attrs := by
  simp [xmlOpen]

theorem xmlOpen_workout_event (i : String) (s : XState) (attrs : List (String × String))
    (h : s.in_workout = true) :
    xmlOpen i s "WorkoutEvent" attrs = workoutEventOpen s attrs := by
  simp [xmlOpen, h]

theorem xmlOpen_workout_event_out (i : String) (s : XState) (attrs : List (String × String))
    (h : ¬s.in_workout = true) :
    xmlOpen i s "WorkoutEvent" attrs = s := by
  simp [xmlOpen, h]

theorem xmlOpen_workout_stat (i : String) (s : XState) (attrs : List (String × String))
    (h : s.in_workout = true) :
    xmlOpen i s "WorkoutStatistics" attrs = workoutStatOpen s attrs := by
  simp [xmlOpen, h]

theorem xmlOpen_workout_stat_out (i : String) (s : XState) (attrs : List (String × String))
    (h : ¬s.in_workout = true) :
    xmlOpen i s "WorkoutStatistics" attrs = s := by
  simp [xmlOpen, h]

theorem xmlOpen_activity (i : String) (s : XState) (attrs : List (String × String)) :
    xmlOpen i s "ActivitySummary" attrs = activityOpen i s attrs := by
  simp [xmlOpen]

theorem xmlOpen_correlation (i : String) (s : XState) (attrs : List (String × String)) :
    xmlOpen i s "Correlation" attrs = { s with in_correlation := true } := by
  simp [xmlOpen]

theorem xmlOpen_other (i : String) (s : XState) (n : String) (attrs : List (String × String))
    (h1 : n ≠ "Record") (h2 : n ≠ "MetadataEntry") (h3 : n ≠ "Workout")
    (h4 : n ≠ "WorkoutEvent") (h5 : n ≠ "WorkoutStatistics") (h6 : n ≠ "ActivitySummary")
    (h7 : n ≠ "Correlation") :
    xmlOpen i s n attrs = s := by
  simp [xmlOpen, h1, h2, h3, h4, h5, h6, h7]

theorem xmlClose_record (s : XState) :
    xmlClose s "Record" = { s with in_record := false, current_record_hash := none } := by
  simp [xmlClose]

theorem xmlClose_workout (s : XState) :
    xmlClose s "Workout" = workoutClose s := by
  simp [xmlClose]

theorem xmlClose_correlation (s : XState) :
    xmlClose s "Correlation" = { s with in_correlation := false } := by
  simp [xmlClose]

theorem xmlClose_other (s : XState) (n : String)
    (h1 : n ≠ "Record") (h2 : n ≠ "Workout") (h3 : n ≠ "Correlation") :
    xmlClose s n = s := by
  simp [xmlClose, h1, h2, h3]

/-! Per-arm bookkeeping for the record table and the correlation flag. -/

theorem recordOpen_recCount (i : String) (s : XState) (attrs : List (String × String)) :
    ((recordOpen i s attrs).records.length + (recordOpen i s attrs).record_batch.length
      = s.records.length + s.record_batch.length + 1)
    ∧ (recordOpen i s attrs).in_correlation = s.in_correlation := by
  simp only [recordOpen, pushRecord]
  split
  · refine ⟨?_, by simp⟩
    simp only [List.length_append, List.length_cons, List.length_nil]
    omega
  · refine ⟨?_, by simp⟩
    simp only [List.length_append, List.length_cons, List.length_nil]
    omega

theorem metadataOpen_recCount (s : XState) (attrs : List (String × String)) :
    (metadataOpen s attrs).records = s.records
    ∧ (metadataOpen s attrs).record_batch = s.record_batch
    ∧ (metadataOpen s attrs).in_correlation = s.in_correlation := by
  simp only [metadataOpen, pushMetadata]
  repeat' split
  all_goals simp

theorem workoutEventOpen_recCount (s : XState) (attrs : List (String × String)) :
    (workoutEventOpen s attrs).records = s.records
    ∧ (workoutEventOpen s attrs).record_batch = s.record_batch
    ∧ (workoutEventOpen s attrs).in_correlation = s.in_correlation := by
  simp only [workoutEventOpen]
  split
  all_goals simp

theorem workoutStatOpen_recCount (s : XState) (attrs : List (String × String)) :
    (workoutStatOpen s attrs).records = s.records
    ∧ (workoutStatOpen s attrs).record_batch = s.record_batch
    ∧ (workoutStatOpen s attrs).in_correlation = s.in_correlation := by
  simp only [workoutStatOpen]
  split
  all_goals simp

theorem activityOpen_recCount (i : String) (s : XState) (attrs : List (String × String)) :
    (activityOpen i s attrs).records = s.records
    ∧ (activityOpen i s attrs).record_batch = s.record_batch
    ∧ (activityOpen i s attrs).in_correlation = s.in_correlation := by
  simp only [activityOpen, pushActivity]
  split
  all_goals simp

theorem workoutClose_recCount (s : XState) :
    (workoutClose s).records = s.records
    ∧ (workoutClose s).record_batch = s.record_batch
    ∧ (workoutClose s).in_correlation = s.in_correlation := by
  simp only [workoutClose]
  repeat' split
  all_goals simp

theorem xmlOpen_recCount (i : String) (s : XState) (n : String)
    (attrs : List (String × String)) :
    ((xmlOpen i s n attrs).records.length + (xmlOpen i s n attrs).record_batch.length
      = s.records.length + s.record_batch.length
        + (if n = "Record" ∧ ¬s.in_correlation = true then 1 else 0))
    ∧ (xmlOpen i s n attrs).in_correlation
      = (if n = "Correlation" then true else s.in_correlation) := by
  by_cases h1 : n = "Record"
  · subst h1
    by_cases hc : s.in_correlation = true
    · rw [xmlOpen_record_in_corr i s attrs hc]
      simp [hc]
    · rw [xmlOpen_record i s attrs hc]
      obtain ⟨ha, hb⟩ := recordOpen_recCount i s attrs
      refine ⟨?_, by simp [hb]⟩
      rw [ha, if_pos ⟨rfl, hc⟩]
  · by_cases h2 : n = "MetadataEntry"
    · subst h2
      rw [xmlOpen_metadata]
      obtain ⟨ha, hb, hc⟩ := metadataOpen_recCount s attrs
      rw [ha, hb, hc]
      simp
    · by_cases h3 : n = "Workout"
      · subst h3
        rw [xmlOpen_workout]
        simp [workoutOpen]
      · by_cases h4 : n = "WorkoutEvent"
        · subst h4
          by_cases hw : s.in_workout = true
          · rw [xmlOpen_workout_event i s attrs hw]
            obtain ⟨ha, hb, hc⟩ := workoutEventOpen_recCount s attrs
            rw [ha, hb, hc]
            simp
          · rw [xmlOpen_workout_event_out i s attrs hw]
            simp
        · by_cases h5 : n = "WorkoutStatistics"
          · subst h5
            by_cases hw : s.in_workout = true
            · rw [xmlOpen_workout_stat i s attrs hw]
              obtain ⟨ha, hb, hc⟩ := workoutStatOpen_recCount s attrs
              rw [ha, hb, hc]
              simp
            · rw [xmlOpen_workout_stat_out i s attrs hw]
              simp
          · by_cases h6 : n = "ActivitySummary"
            · subst h6
              rw [xmlOpen_activity]
              obtain ⟨ha, hb, hc⟩ := activityOpen_recCount i s attrs
              rw [ha, hb, hc]
              simp
            · by_cases h7 : n = "Correlation"
              · subst h7
                rw [xmlOpen_correlation]
                simp
              · rw [xmlOpen_other i s n attrs h1 h2 h3 h4 h5 h6 h7]
                simp [h1, h7]

theorem xmlClose_recCount (s : XState) (n : String) :
    ((xmlClose s n).records.length + (xmlClose s n).record_batch.length
      = s.records.length + s.record_batch.length)
    ∧ (xmlClose s n).in_correlation
      = (if n = "Correlation" then false else s.in_correlation) := by
  by_cases h1 : n = "Record"
  · subst h1
    rw [xmlClose_record]
    simp
  · by_cases h2 : n = "Workout"
    · subst h2
      rw [xmlClose_workout]
      obtain ⟨ha, hb, hc⟩ := workoutClose_recCount s
      rw [ha, hb, hc]
      simp
    · by_cases h3 : n = "Correlation"
      · subst h3
        rw [xmlClose_correlation]
        simp
      · rw [xmlClose_other s n h1 h2 h3]
        simp [h3]

theorem xmlFold_recCount (i : String) (doc : List XEvent) :
    ∀ s : XState,
    ((doc.foldl (xmlStep i) s).records.length
      + (doc.foldl (xmlStep i) s).record_batch.length)
      = s.records.length + s.record_batch.length + tlrCount s.in_correlation doc := by
  induction doc with
  | nil =>
    intro s
    simp [tlrCount]
  | cons e rest ih =>
    intro s
    rw [List.foldl_cons, ih]
    cases e with
    | start n attrs =>
      obtain ⟨hsum, hflag⟩ := xmlOpen_recCount i s n attrs
      show (xmlOpen i s n attrs).records.length + (xmlOpen i s n attrs).record_batch.length
        + tlrCount (xmlOpen i s n attrs).in_correlation rest = _
      rw [hsum, hflag]
      simp only [tlrCount]
      by_cases h1 : n = "Correlation"
      · subst h1
        simp
      · by_cases h2 : n = "Record" ∧ ¬s.in_correlation = true
        · rw [if_neg h1, if_pos h2, if_pos h2, if_neg h1]
          omega
        · rw [if_neg h1, if_neg h2, if_neg h2, if_neg h1]
          omega
    | empty n attrs =>
      obtain ⟨hsum, hflag⟩ := xmlOpen_recCount i s n attrs
      show (xmlOpen i s n attrs).records.length + (xmlOpen i s n attrs).record_batch.length
        + tlrCount (xmlOpen i s n attrs).in_correlation rest = _
      rw [hsum, hflag]
      simp only [tlrCount]
      by_cases h1 : n = "Correlation"
      · subst h1
        simp
      · by_cases h2 : n = "Record" ∧ ¬s.in_correlation = true
        · rw [if_neg h1, if_pos h2, if_pos h2, if_neg h1]
          omega
        · rw [if_neg h1, if_neg h2, if_neg h2, if_neg h1]
          omega
    | stop n =>
      obtain ⟨hsum, hflag⟩ := xmlClose_recCount s n
      show (xmlClose s n).records.length + (xmlClose s n).record_batch.length
        + tlrCount (xmlClose s n).in_correlation rest = _
      rw [hsum, hflag]
      simp only [tlrCount]
      by_cases h1 : n = "Correlation"
      · subst h1
        simp
      · rw [if_neg h1, if_neg h1]
    | text t =>
      simp [xmlStep, tlrCount]
    | other =>
      simp [xmlStep, tlrCount]

/-- C6: the number of record rows produced by the primary parser equals the
number of Record elements opened outside a correlation wrapper: a Record
nested inside a Correlation adds no row, and the Correlation wrapper itself
adds no row to any table (it only toggles the suppression flag). -/
theorem records_count_top_level (i : String) (doc : List XEvent) :
    (import_xml i doc).records.length = tlrCount false doc := by
  have h := xmlFold_recCount i doc initXState
  simp only [initXState] at h
  show (finishXml (doc.foldl (xmlStep i) initXState)).records.length = _
  simp only [finishXml, List.length_append]
  simpa [initXState] using h

/-! ## Unclosed workouts contribute no child rows: claim C7 -/

theorem xmlOpen_emitted (i : String) (s : XState) (n : String)
    (attrs : List (String × String)) :
    emittedEvents (xmlOpen i s n attrs) = emittedEvents s
    ∧ emittedStats (xmlOpen i s n attrs) = emittedStats s
    ∧ emittedWorkouts (xmlOpen i s n attrs) = emittedWorkouts s := by
  simp only [emittedEvents, emittedStats, emittedWorkouts, xmlOpen, recordOpen, pushRecord,
    metadataOpen, pushMetadata, workoutOpen, workoutEventOpen, workoutStatOpen,
    activityOpen, pushActivity]
  repeat' split
  all_goals simp

theorem xmlClose_emitted (s : XState) (n : String) (h : n ≠ "Workout") :
    emittedEvents (xmlClose s n) = emittedEvents s
    ∧ emittedStats (xmlClose s n) = emittedStats s
    ∧ emittedWorkouts (xmlClose s n) = emittedWorkouts s := by
  simp only [emittedEvents, emittedStats, emittedWorkouts, xmlClose, workoutClose]
  repeat' split
  all_goals first
    | exact absurd ‹n = "Workout"› h
    | simp

theorem xmlStep_emitted (i : String) (s : XState) (e : XEvent)
    (h : e ≠ XEvent.stop "Workout") :
    emittedEvents (xmlStep i s e) = emittedEvents s
    ∧ emittedStats (xmlStep i s e) = emittedStats s
    ∧ emittedWorkouts (xmlStep i s e) = emittedWorkouts s := by
  cases e with
  | start n attrs => exact xmlOpen_emitted i s n attrs
  | empty n attrs => exact xmlOpen_emitted i s n attrs
  | stop n =>
    refine xmlClose_emitted s n ?_
    intro hn
    exact h (by rw [hn])
  | text t => exact ⟨rfl, rfl, rfl⟩
  | other => exact ⟨rfl, rfl, rfl⟩

theorem xmlFold_emitted (i : String) (d : List XEvent) :
    ∀ s : XState, (∀ e ∈ d, e ≠ XEvent.stop "Workout") →
    emittedEvents (d.foldl (xmlStep i) s) = emittedEvents s
    ∧ emittedStats (d.foldl (xmlStep i) s) = emittedStats s
    ∧ emittedWorkouts (d.foldl (xmlStep i) s) = emittedWorkouts s := by
  induction d with
  | nil =>
    intro s _
    exact ⟨rfl, rfl, rfl⟩
  | cons e rest ih =>
    intro s h
    rw [List.foldl_cons]
    have h1 := xmlStep_emitted i s e (h e (List.mem_cons_self e rest))
    have h2 := ih (xmlStep i s e) (fun e' he' => h e' (List.mem_cons_of_mem e he'))
    exact ⟨h2.1.trans h1.1, h2.2.1.trans h1.2.1, h2.2.2.trans h1.2.2⟩

/-- C7: if a document opens a workout whose closing boundary is never
observed in the remaining events, the committed workout-event,
workout-statistic and workout tables are exactly those of the document up to
that open: the unclosed workout contributes no event or statistic rows (its
pending children are discarded at end of input), while every workout that
closed earlier keeps its workout row and all of its committed events and
statistics. -/
theorem truncated_workout_discards_children (i : String) (d1 : List XEvent)
    (attrs : List (String × String)) (d2 : List XEvent)
    (h : ∀ e ∈ d2, e ≠ XEvent.stop "Workout") :
    (import_xml i (d1 ++ XEvent.start "Workout" attrs :: d2)).workout_events
      = (import_xml i d1).workout_events
    ∧ (import_xml i (d1 ++ XEvent.start "Workout" attrs :: d2)).workout_statistics
      = (import_xml i d1).workout_statistics
    ∧ (import_xml i (d1 ++ XEvent.start "Workout" attrs :: d2)).workouts
      = (import_xml i d1).workouts := by
  unfold import_xml
  rw [List.foldl_append, List.foldl_cons]
  have hstart := xmlStep_emitted i (d1.foldl (xmlStep i) initXState)
    (XEvent.start "Workout" attrs) (by simp)
  have hfold := xmlFold_emitted i d2
    (xmlStep i (d1.foldl (xmlStep i) initXState) (XEvent.start "Workout" attrs)) h
  exact ⟨hfold.1.trans hstart.1, hfold.2.1.trans hstart.2.1, hfold.2.2.trans hstart.2.2⟩

theorem truncated_workout_discards_children_witness :
    (∀ e ∈ truncatedTail, e ≠ XEvent.stop "Workout")
    ∧ (import_xml "imp" (closedPart ++ XEvent.start "Workout"
          [("workoutActivityType", "Run2")] :: truncatedTail)).workout_events
        = (import_xml "imp" closedPart).workout_events :=
  ⟨by decide,
   (truncated_workout_discards_children "imp" closedPart
     [("workoutActivityType", "Run2")] truncatedTail (by decide)).1⟩

/-! ## GPX trackpoint storage: claim C8 -/

theorem gpxStep_rows (i : String) (wh : Option String) (s : GpxState) (e : XEvent) :
    (gpxStep i wh s e).rows = s.rows ++ gpxEmit i wh s e := by
  cases e <;> simp only [gpxStep, gpxEmit] <;> repeat' split
  all_goals simp

theorem gpxStep_stripRows (i i' : String) (wh wh' : Option String) (s s' : GpxState)
    (h : stripRows s = stripRows s') (e : XEvent) :
    stripRows (gpxStep i wh s e) = stripRows (gpxStep i' wh' s' e) := by
  cases s
  cases s'
  simp only [stripRows, GpxState.mk.injEq, and_true] at h
  obtain ⟨e1, e2, e3, e4, e5, e6, e7, e8, e9, e10⟩ := h
  subst e1
  subst e2
  subst e3
  subst e4
  subst e5
  subst e6
  subst e7
  subst e8
  subst e9
  subst e10
  cases e <;> simp only [gpxStep, stripRows] <;> repeat' split
  all_goals simp

theorem gpxEmit_length (i i' : String) (wh wh' : Option String) (s s' : GpxState)
    (h : stripRows s = stripRows s') (e : XEvent) :
    (gpxEmit i wh s e).length = (gpxEmit i' wh' s' e).length := by
  cases s
  cases s'
  simp only [stripRows, GpxState.mk.injEq, and_true] at h
  obtain ⟨e1, e2, e3, e4, e5, e6, e7, e8, e9, e10⟩ := h
  subst e1
  subst e2
  subst e3
  subst e4
  subst e5
  subst e6
  subst e7
  subst e8
  subst e9
  subst e10
  cases e <;> (simp only [gpxEmit]; repeat' split)
  all_goals simp

theorem gpxEmit_workout_hash (i : String) (wh : Option String) (s : GpxState) (e : XEvent) :
    ∀ r ∈ gpxEmit i wh s e, r.workout_hash = wh := by
  cases e <;> simp only [gpxEmit] <;> repeat' split
  all_goals simp

theorem gpxFold_count (doc : List XEvent) :
    ∀ (i i' : String) (wh wh' : Option String) (s s' : GpxState),
    stripRows s = stripRows s' → s.rows.length = s'.rows.length →
    (doc.foldl (gpxStep i wh) s).rows.length = (doc.foldl (gpxStep i' wh') s').rows.length := by
  induction doc with
  | nil =>
    intro i i' wh wh' s s' _ hlen
    exact hlen
  | cons e rest ih =>
    intro i i' wh wh' s s' hs hlen
    rw [List.foldl_cons, List.foldl_cons]
    refine ih i i' wh wh' _ _ (gpxStep_stripRows i i' wh wh' s s' hs e) ?_
    rw [gpxStep_rows i wh s e, gpxStep_rows i' wh' s' e]
    simp only [List.length_append, hlen, gpxEmit_length i i' wh wh' s s' hs e]

theorem gpxFold_workout_hash (i : String) (wh : Option String) (doc : List XEvent) :
    ∀ s : GpxState, (∀ r ∈ s.rows, r.workout_hash = wh) →
    ∀ r ∈ (doc.foldl (gpxStep i wh) s).rows, r.workout_hash = wh := by
  induction doc with
  | nil =>
    intro s hs
    exact hs
  | cons e rest ih =>
    intro s hs
    rw [List.foldl_cons]
    refine ih (gpxStep i wh s e) ?_
    rw [gpxStep_rows]
    intro r hr
    rcases List.mem_append.mp hr with h | h
    · exact hs r h
    · exact gpxEmit_workout_hash i wh s e r h

/-- C8: a trackpoint close stores exactly one row when latitude, longitude
and timestamp are all present, and no row when any of the three is missing;
the number of stored rows does not depend on whether the owning workout was
resolved (an unresolved file is still imported, every stored row simply
carries the resolved reference, which is null when the path-to-workout map
had no entry). -/
theorem gpx_trackpoint_storage :
    (∀ (doc : List XEvent) (i i' : String) (wh wh' : Option String),
      (import_single_gpx i wh doc).length = (import_single_gpx i' wh' doc).length)
    ∧ (∀ (doc : List XEvent) (i : String) (wh : Option String),
        ∀ r ∈ import_single_gpx i wh doc, r.workout_hash = wh)
    ∧ (∀ (i : String) (wh : Option String) (s : GpxState), s.in_trkpt = true →
        (s.lat = none ∨ s.lon = none ∨ s.timestamp = none) →
        (gpxStep i wh s (XEvent.stop "trkpt")).rows = s.rows)
    ∧ (∀ (i : String) (wh : Option String) (s : GpxState) (lat lon ts : String),
        s.in_trkpt = true → s.lat = some lat → s.lon = some lon → s.timestamp = some ts →
        (gpxStep i wh s (XEvent.stop "trkpt")).rows
          = s.rows ++ [⟨compute_hash [wh.getD "", ts, lat, lon], wh, lat, lon, s.ele,
              clean_timestamp ts, s.speed, s.course, s.h_accuracy, s.v_accuracy, i⟩]) := by
  refine ⟨?_, ?_, ?_, ?_⟩
  · intro doc i i' wh wh'
    exact gpxFold_count doc i i' wh wh' initGpxState initGpxState rfl rfl
  · intro doc i wh
    exact gpxFold_workout_hash i wh doc initGpxState (by simp [initGpxState])
  · intro i wh s hin hmiss
    rw [gpxStep_rows]
    simp only [gpxEmit]
    rw [if_pos ⟨trivial, hin⟩]
    rcases hl : s.lat with _ | a
    · simp
    · rcases ho : s.lon with _ | b
      · simp
      · rcases ht : s.timestamp with _ | c
        · simp
        · rw [hl, ho, ht] at hmiss
          rcases hmiss with h | h | h <;> simp at h
  · intro i wh s lat lon ts hin hlat hlon hts
    rw [gpxStep_rows]
    simp only [gpxEmit]
    rw [if_pos ⟨trivial, hin⟩, hlat, hlon, hts]

theorem gpx_trackpoint_storage_witness :
    gpxStNoLat.in_trkpt = true
    ∧ gpxStNoLat.lat = none
    ∧ (gpxStep "i" none gpxStNoLat (XEvent.stop "trkpt")).rows = gpxStNoLat.rows
    ∧ (gpxStep "i" none gpxStFull (XEvent.stop "trkpt")).rows
        = gpxStFull.rows ++ [⟨compute_hash ["", "2024-01-01T00:00:00Z", "1.5", "2.5"], none,
            "1.5", "2.5", none, clean_timestamp "2024-01-01T00:00:00Z",
            none, none, none, none, "i"⟩] :=
  ⟨rfl, rfl,
   gpx_trackpoint_storage.2.2.1 "i" none gpxStNoLat rfl (Or.inl rfl),
   gpx_trackpoint_storage.2.2.2 "i" none gpxStFull "1.5" "2.5" "2024-01-01T00:00:00Z"
     rfl rfl rfl rfl⟩

/-! ## Privacy-sensitive ECG header values have no influence: claim C10 -/

theorem strStarts_ne_empty {s p : String} (h : strStarts s p = true) (hp : p.data ≠ []) :
    ¬s = "" := by
  intro hs
  subst hs
  rw [strStarts, startsWithL] at h
  have hnil : ("" : String).data = [] := rfl
  rw [hnil] at h
  simp only [List.take_nil, decide_eq_true_eq] at h
  exact hp h.symm

theorem dob_not_name {s : String} (h : strStarts s "Date of Birth," = true) :
    strStarts s "Name," = false := by
  simp only [strStarts, startsWithL, decide_eq_true_eq] at h
  have h5 : s.data.take 5 = ['D', 'a', 't', 'e', ' '] := by
    have := congrArg (List.take 5) h
    simpa [List.take_take] using this
  simp [strStarts, startsWithL, h5]

theorem take_of_strStarts {s p : String} (h : strStarts s p = true) :
    s.data = p.data ++ s.data.drop p.data.length := by
  simp only [strStarts, startsWithL, decide_eq_true_eq] at h
  conv_lhs => rw [← List.take_append_drop p.data.length s.data]
  rw [h]

theorem f64Parses_name_false {s : String} (h : strStarts s "Name," = true) :
    f64Parses s = false := by
  have hd := take_of_strStarts h
  rw [f64Parses, hd]
  rfl

theorem f64Parses_dob_false {s : String} (h : strStarts s "Date of Birth," = true) :
    f64Parses s = false := by
  have hd := take_of_strStarts h
  rw [f64Parses, hd]
  rfl

theorem parseEcgHeader_twin : ∀ l1 l2 : List String, privacyTwinLines l1 l2 = true →
    ∀ acc : EcgHeader, parseEcgHeader l1 acc = parseEcgHeader l2 acc := by
  intro l1
  induction l1 with
  | nil =>
    intro l2 h acc
    cases l2 with
    | nil => rfl
    | cons b bs => simp [privacyTwinLines] at h
  | cons a as ih =>
    intro l2 h acc
    cases l2 with
    | nil => simp [privacyTwinLines] at h
    | cons b bs =>
      simp only [privacyTwinLines, Bool.and_eq_true] at h
      obtain ⟨hab, hrest⟩ := h
      simp only [privacyTwinB, Bool.or_eq_true, beq_iff_eq, Bool.and_eq_true] at hab
      rcases hab with (rfl | ⟨hna, hnb⟩) | ⟨hda, hdb⟩
      · have hrec : ∀ acc' : EcgHeader, parseEcgHeader as acc' = parseEcgHeader bs acc' :=
          fun acc' => ih bs hrest acc'
        simp only [parseEcgHeader, hrec]
      · have hea := strStarts_ne_empty hna (by decide)
        have heb := strStarts_ne_empty hnb (by decide)
        simp only [parseEcgHeader]
        rw [if_neg hea, if_neg heb, if_pos hna, if_pos hnb]
        exact ih bs hrest acc
      · have hea := strStarts_ne_empty hda (by decide)
        have heb := strStarts_ne_empty hdb (by decide)
        have hnna : ¬strStarts (trimStr a) "Name," = true := by simp [dob_not_name hda]
        have hnnb : ¬strStarts (trimStr b) "Name," = true := by simp [dob_not_name hdb]
        simp only [parseEcgHeader]
        rw [if_neg hea, if_neg heb, if_neg hnna, if_neg hnnb, if_pos hda, if_pos hdb]
        exact ih bs hrest acc

theorem collectSamples_twin (hash : String) : ∀ l1 l2 : List String,
    privacyTwinLines l1 l2 = true →
    ∀ (flag : Bool) (idx : Nat), collectSamples hash l1 flag idx = collectSamples hash l2 flag idx := by
  intro l1
  induction l1 with
  | nil =>
    intro l2 h flag idx
    cases l2 with
    | nil => rfl
    | cons b bs => simp [privacyTwinLines] at h
  | cons a as ih =>
    intro l2 h flag idx
    cases l2 with
    | nil => simp [privacyTwinLines] at h
    | cons b bs =>
      simp only [privacyTwinLines, Bool.and_eq_true] at h
      obtain ⟨hab, hrest⟩ := h
      simp only [privacyTwinB, Bool.or_eq_true, beq_iff_eq, Bool.and_eq_true] at hab
      rcases hab with (rfl | ⟨hna, hnb⟩) | ⟨hda, hdb⟩
      · have hrec : ∀ (flag : Bool) (idx : Nat),
            collectSamples hash as flag idx = collectSamples hash bs flag idx :=
          fun f n => ih bs hrest f n
        simp only [collectSamples, hrec]
      · have hea := strStarts_ne_empty hna (by decide)
        have heb := strStarts_ne_empty hnb (by decide)
        have hfa : ¬f64Parses (trimStr a) = true := by simp [f64Parses_name_false hna]
        have hfb : ¬f64Parses (trimStr b) = true := by simp [f64Parses_name_false hnb]
        simp only [collectSamples]
        rw [if_neg hea, if_neg heb, if_neg hfa, if_neg hfb]
        cases flag with
        | true => rfl
        | false => exact ih bs hrest false idx
      · have hea := strStarts_ne_empty hda (by decide)
        have heb := strStarts_ne_empty hdb (by decide)
        have hfa : ¬f64Parses (trimStr a) = true := by simp [f64Parses_dob_false hda]
        have hfb : ¬f64Parses (trimStr b) = true := by simp [f64Parses_dob_false hdb]
        simp only [collectSamples]
        rw [if_neg hea, if_neg heb, if_neg hfa, if_neg hfb]
        cases flag with
        | true => rfl
        | false => exact ih bs hrest false idx

/-- C10: two ECG files that differ only in the values of the privacy-sensitive
header lines (personal name, birth date) produce exactly the same reading row
and sample rows — the privacy-sensitive lines are recognized and skipped by
the header pass, and never parse as voltage samples in the sample pass. -/
theorem ecg_privacy_independent (i : String) (l1 l2 : List String)
    (h : privacyTwinLines l1 l2 = true) :
    import_single_ecg i l1 = import_single_ecg i l2 := by
  unfold import_single_ecg
  rw [parseEcgHeader_twin l1 l2 h]
  have hcs : ∀ (hash : String) (flag : Bool) (idx : Nat),
      collectSamples hash l1 flag idx = collectSamples hash l2 flag idx :=
    fun hash => collectSamples_twin hash l1 l2 h
  simp only [hcs]

theorem ecg_privacy_independent_witness :
    privacyTwinLines ecgFileA ecgFileB = true
    ∧ import_single_ecg "imp" ecgFileA = import_single_ecg "imp" ecgFileB :=
  ⟨by decide, ecg_privacy_independent "imp" ecgFileA ecgFileB (by decide)⟩

/-! ## Retag commutation: parsing under a different run identifier yields the
same rows up to the import_id column -/

theorem pushRecord_retag (i : String) (s : XState) (r : RecordRow) :
    pushRecord (retagX i s) (RecordRow.retag i r) = retagX i (pushRecord s r) := by
  simp only [pushRecord, retagX, List.length_append, List.length_map, List.length_cons,
    List.length_nil]
  split <;> simp [List.map_append]

theorem pushMetadata_retag (i : String) (s : XState) (m : MetadataRow) :
    pushMetadata (retagX i s) m = retagX i (pushMetadata s m) := by
  simp only [pushMetadata, retagX, List.length_append, List.length_map, List.length_cons,
    List.length_nil]
  split <;> simp

theorem pushActivity_retag (i : String) (s : XState) (a : ActivityRow) :
    pushActivity (retagX i s) (ActivityRow.retag i a) = retagX i (pushActivity s a) := by
  simp only [pushActivity, retagX, List.length_append, List.length_map, List.length_cons,
    List.length_nil]
  split <;> simp [List.map_append]

theorem recordOpen_retag (i j : String) (s : XState) (attrs : List (String × String)) :
    recordOpen i (retagX i s) attrs = retagX i (recordOpen j s attrs) := by
  simp only [recordOpen, pushRecord, retagX, RecordRow.retag, List.length_append,
    List.length_map, List.length_cons, List.length_nil]
  split <;> simp [List.map_append, RecordRow.retag]

theorem metadataOpen_retag (i : String) (s : XState) (attrs : List (String × String)) :
    metadataOpen (retagX i s) attrs = retagX i (metadataOpen s attrs) := by
  simp only [metadataOpen, pushMetadata, retagX, List.length_append, List.length_map,
    List.length_cons, List.length_nil]
  repeat' split
  all_goals simp

theorem workoutOpen_retag (i j : String) (s : XState) (attrs : List (String × String)) :
    workoutOpen i (retagX i s) attrs = retagX i (workoutOpen j s attrs) := by
  simp only [workoutOpen, retagX, WorkoutRow.retag]
  simp [WorkoutRow.retag]

theorem workoutEventOpen_retag (i : String) (s : XState) (attrs : List (String × String)) :
    workoutEventOpen (retagX i s) attrs = retagX i (workoutEventOpen s attrs) := by
  cases hw : s.current_workout with
  | none =>
    simp only [workoutEventOpen, retagX]
    simp [hw]
  | some w =>
    simp only [workoutEventOpen, retagX]
    simp [hw, WorkoutRow.retag]

theorem workoutStatOpen_retag (i : String) (s : XState) (attrs : List (String × String)) :
    workoutStatOpen (retagX i s) attrs = retagX i (workoutStatOpen s attrs) := by
  cases hw : s.current_workout with
  | none =>
    simp only [workoutStatOpen, retagX]
    simp [hw]
  | some w =>
    simp only [workoutStatOpen, retagX]
    simp [hw, WorkoutRow.retag]

theorem activityOpen_retag (i j : String) (s : XState) (attrs : List (String × String)) :
    activityOpen i (retagX i s) attrs = retagX i (activityOpen j s attrs) := by
  simp only [activityOpen]
  rw [show (ActivityRow.mk ((attr_value attrs "dateComponents").getD "")
      (parse_opt_f64 (attr_value attrs "activeEnergyBurned"))
      (parse_opt_f64 (attr_value attrs "activeEnergyBurnedGoal"))
      (parse_opt_f64 (attr_value attrs "appleMoveTime"))
      (parse_opt_f64 (attr_value attrs "appleMoveTimeGoal"))
      (parse_opt_f64 (attr_value attrs "appleExerciseTime"))
      (parse_opt_f64 (attr_value attrs "appleExerciseTimeGoal"))
      (parse_opt_f64 (attr_value attrs "appleStandHours"))
      (parse_opt_f64 (attr_value attrs "appleStandHoursGoal")) i)
      = ActivityRow.retag i (ActivityRow.mk ((attr_value attrs "dateComponents").getD "")
      (parse_opt_f64 (attr_value attrs "activeEnergyBurned"))
      (parse_opt_f64 (attr_value attrs "activeEnergyBurnedGoal"))
      (parse_opt_f64 (attr_value attrs "appleMoveTime"))
      (parse_opt_f64 (attr_value attrs "appleMoveTimeGoal"))
      (parse_opt_f64 (attr_value attrs "appleExerciseTime"))
      (parse_opt_f64 (attr_value attrs "appleExerciseTimeGoal"))
      (parse_opt_f64 (attr_value attrs "appleStandHours"))
      (parse_opt_f64 (attr_value attrs "appleStandHoursGoal")) j) from rfl]
  exact pushActivity_retag i s _

theorem workoutClose_retag (i : String) (s : XState) :
    workoutClose (retagX i s) = retagX i (workoutClose s) := by
  cases hw : s.current_workout with
  | none =>
    simp only [workoutClose, retagX]
    simp [hw]
  | some w =>
    simp only [workoutClose, retagX, List.length_append, List.length_map, List.length_cons,
      List.length_nil]
    simp only [hw, Option.map_some]
    repeat' split
    all_goals simp_all [List.map_append, WorkoutRow.retag]

theorem xmlOpen_retag (i j : String) (s : XState) (n : String)
    (attrs : List (String × String)) :
    xmlOpen i (retagX i s) n attrs = retagX i (xmlOpen j s n attrs) := by
  by_cases h1 : n = "Record"
  · subst h1
    by_cases hc : s.in_correlation = true
    · rw [xmlOpen_record_in_corr j s attrs hc, xmlOpen_record_in_corr i (retagX i s) attrs hc]
    · rw [xmlOpen_record j s attrs hc, xmlOpen_record i (retagX i s) attrs hc]
      exact recordOpen_retag i j s attrs
  · by_cases h2 : n = "MetadataEntry"
    · subst h2
      rw [xmlOpen_metadata, xmlOpen_metadata]
      exact metadataOpen_retag i s attrs
    · by_cases h3 : n = "Workout"
      · subst h3
        rw [xmlOpen_workout, xmlOpen_workout]
        exact workoutOpen_retag i j s attrs
      · by_cases h4 : n = "WorkoutEvent"
        · subst h4
          by_cases hw : s.in_workout = true
          · rw [xmlOpen_workout_event j s attrs hw, xmlOpen_workout_event i (retagX i s) attrs hw]
            exact workoutEventOpen_retag i s attrs
          · rw [xmlOpen_workout_event_out j s attrs hw,
              xmlOpen_workout_event_out i (retagX i s) attrs hw]
        · by_cases h5 : n = "WorkoutStatistics"
          · subst h5
            by_cases hw : s.in_workout = true
            · rw [xmlOpen_workout_stat j s attrs hw, xmlOpen_workout_stat i (retagX i s) attrs hw]
              exact workoutStatOpen_retag i s attrs
            · rw [xmlOpen_workout_stat_out j s attrs hw,
                xmlOpen_workout_stat_out i (retagX i s) attrs hw]
          · by_cases h6 : n = "ActivitySummary"
            · subst h6
              rw [xmlOpen_activity, xmlOpen_activity]
              exact activityOpen_retag i j s attrs
            · by_cases h7 : n = "Correlation"
              · subst h7
                rw [xmlOpen_correlation, xmlOpen_correlation]
                simp [retagX]
              · rw [xmlOpen_other j s n attrs h1 h2 h3 h4 h5 h6 h7,
                  xmlOpen_other i (retagX i s) n attrs h1 h2 h3 h4 h5 h6 h7]

theorem xmlClose_retag (i : String) (s : XState) (n : String) :
    xmlClose (retagX i s) n = retagX i (xmlClose s n) := by
  by_cases h1 : n = "Record"
  · subst h1
    rw [xmlClose_record, xmlClose_record]
    simp [retagX]
  · by_cases h2 : n = "Workout"
    · subst h2
      rw [xmlClose_workout, xmlClose_workout]
      exact workoutClose_retag i s
    · by_cases h3 : n = "Correlation"
      · subst h3
        rw [xmlClose_correlation, xmlClose_correlation]
        simp [retagX]
      · rw [xmlClose_other s n h1 h2 h3, xmlClose_other (retagX i s) n h1 h2 h3]

theorem xmlStep_retag (i j : String) (s : XState) (e : XEvent) :
    xmlStep i (retagX i s) e = retagX i (xmlStep j s e) := by
  cases e with
  | start n attrs => exact xmlOpen_retag i j s n attrs
  | empty n attrs => exact xmlOpen_retag i j s n attrs
  | stop n => exact xmlClose_retag i s n
  | text t => rfl
  | other => rfl

theorem finishXml_retag (i : String) (s : XState) :
    finishXml (retagX i s) = retagX i (finishXml s) := by
  simp [finishXml, retagX, List.map_append]

theorem import_xml_retag (i j : String) (doc : List XEvent) :
    import_xml i doc = retagX i (import_xml j doc) := by
  unfold import_xml
  have hfold : ∀ s : XState,
      doc.foldl (xmlStep i) (retagX i s) = retagX i (doc.foldl (xmlStep j) s) := by
    induction doc with
    | nil => intro s; rfl
    | cons e rest ih =>
      intro s
      rw [List.foldl_cons, List.foldl_cons, xmlStep_retag i j s e, ih]
  calc finishXml (doc.foldl (xmlStep i) initXState)
      = finishXml (doc.foldl (xmlStep i) (retagX i initXState)) := rfl
    _ = finishXml (retagX i (doc.foldl (xmlStep j) initXState)) := by rw [hfold]
    _ = retagX i (finishXml (doc.foldl (xmlStep j) initXState)) := finishXml_retag i _

theorem import_single_ecg_retag (i j : String) (lines : List String) :
    import_single_ecg i lines
      = (import_single_ecg j lines).map (fun p => (EcgReadingRow.retag i p.1, p.2)) := by
  simp only [import_single_ecg]
  split
  · rfl
  · simp [EcgReadingRow.retag]

theorem gpxStep_retag (i j : String) (wh : Option String) (s : GpxState) (e : XEvent) :
    gpxStep i wh (retagG i s) e = retagG i (gpxStep j wh s e) := by
  cases e with
  | start n attrs =>
    simp only [gpxStep, retagG]
    repeat' split
    all_goals simp
  | text t =>
    simp only [gpxStep, retagG]
    repeat' split
    all_goals simp
  | stop n =>
    simp only [gpxStep, retagG]
    repeat' split
    all_goals simp [RoutePointRow.retag, List.map_append]
  | empty n attrs => rfl
  | other => rfl

theorem import_single_gpx_retag (i j : String) (wh : Option String) (doc : List XEvent) :
    import_single_gpx i wh doc = (import_single_gpx j wh doc).map (RoutePointRow.retag i) := by
  unfold import_single_gpx
  have hfold : ∀ s : GpxState,
      doc.foldl (gpxStep i wh) (retagG i s) = retagG i (doc.foldl (gpxStep j wh) s) := by
    induction doc with
    | nil => intro s; rfl
    | cons e rest ih =>
      intro s
      rw [List.foldl_cons, List.foldl_cons, gpxStep_retag i j wh s e, ih]
  calc (doc.foldl (gpxStep i wh) initGpxState).rows
      = (doc.foldl (gpxStep i wh) (retagG i initGpxState)).rows := rfl
    _ = (retagG i (doc.foldl (gpxStep j wh) initGpxState)).rows := by rw [hfold]
    _ = ((doc.foldl (gpxStep j wh) initGpxState)).rows.map (RoutePointRow.retag i) := rfl

theorem ecgFold_retag (i j : String) (files : List (List String)) :
    ∀ acc : List EcgReadingRow × List EcgSampleRow,
    files.foldl (ecgStep i) (acc.1.map (EcgReadingRow.retag i), acc.2)
      = ((files.foldl (ecgStep j) acc).1.map (EcgReadingRow.retag i),
         (files.foldl (ecgStep j) acc).2) := by
  induction files with
  | nil => intro acc; rfl
  | cons f rest ih =>
    intro acc
    rw [List.foldl_cons, List.foldl_cons]
    have hstep : ecgStep i (acc.1.map (EcgReadingRow.retag i), acc.2) f
        = ((ecgStep j acc f).1.map (EcgReadingRow.retag i), (ecgStep j acc f).2) := by
      simp only [ecgStep, import_single_ecg_retag i j f]
      cases import_single_ecg j f with
      | none => rfl
      | some p => simp
    rw [hstep]
    exact ih (ecgStep j acc f)

theorem gpxFileFold_retag (i j : String) (routeMap : List (String × String))
    (files : List (String × List XEvent)) :
    ∀ acc : List RoutePointRow,
    files.foldl (gpxFileStep i routeMap) (acc.map (RoutePointRow.retag i))
      = (files.foldl (gpxFileStep j routeMap) acc).map (RoutePointRow.retag i) := by
  induction files with
  | nil => intro acc; rfl
  | cons f rest ih =>
    intro acc
    rw [List.foldl_cons, List.foldl_cons]
    have hstep : gpxFileStep i routeMap (acc.map (RoutePointRow.retag i)) f
        = (gpxFileStep j routeMap acc f).map (RoutePointRow.retag i) := by
      simp only [gpxFileStep, import_single_gpx_retag i j _ f.2, List.map_append]
    rw [hstep]
    exact ih (gpxFileStep j routeMap acc f)

theorem appendRun_join (t : Tables) (i : String) (b : Bundle) :
    appendRun t i b = joinTables t (appendRun emptyTables i b) := by
  simp [appendRun, joinTables, emptyTables]

theorem appendRun_retag (i j : String) (b : Bundle) :
    appendRun emptyTables i b = retagT i (appendRun emptyTables j b) := by
  simp only [appendRun, retagT, emptyTables]
  have hx := import_xml_retag i j b.xml
  have hecg := ecgFold_retag i j b.ecgFiles ([], [])
  have hgpx := gpxFileFold_retag i j (build_workout_route_map b.xml) b.gpxFiles []
  simp only [List.map_nil] at hecg hgpx
  rw [hx, hecg, hgpx]
  simp [retagX]

/-! ## Re-import convergence: claim C1 -/

theorem distinctOn_append_map {α κ : Type} [DecidableEq κ] (key : α → κ) (f : α → α)
    (hf : ∀ x, key (f x) = key x) (l : List α) :
    distinctOn key (l ++ l.map f) = distinctOn key l := by
  apply distinctOn_append_of_subset
  intro x hx
  obtain ⟨y, hy, rfl⟩ := List.mem_map.mp hx
  rw [hf]
  exact List.mem_map_of_mem key hy

theorem distinctOn_append_self {α κ : Type} [DecidableEq κ] (key : α → κ) (l : List α) :
    distinctOn key (l ++ l) = distinctOn key l :=
  distinctOn_append_of_subset key (fun _ hx => List.mem_map_of_mem key hx)

theorem dedup_acts_length (t : Tables) :
    (deduplicate_tables t).activity_summaries.length
      = (t.activity_summaries.map (fun a => a.date_components)).toFinset.card := by
  show (distinctOn (fun a => a.date_components)
    (List.insertionSort actOrder t.activity_summaries)).length = _
  rw [distinctOn_length]
  congr 1
  exact List.toFinset_eq_of_perm _ _
    ((List.perm_insertionSort actOrder t.activity_summaries).map _)

/-- C1 (counterexample): importing the same document twice and then running
the convergence stage does not return every table to its single-import row
count: the workout_events table (likewise workout_statistics) is never
deduplicated, so it stays at double size. -/
theorem import_twice_events_not_converged :
    (deduplicate_tables
        (appendRun (appendRun emptyTables "imp1" wkBundle) "imp2" wkBundle)).workout_events.length
      = 2
    ∧ (deduplicate_tables (appendRun emptyTables "imp1" wkBundle)).workout_events.length = 1 := by
  constructor
  · decide
  · decide

/-- C1 (amended): importing the same export bundle twice yields exactly
double the row count in every table before convergence; after convergence
the records, record_metadata, workouts, ecg_readings, ecg_samples and
route_points tables are exactly what a single import followed by convergence
produces, and the activity_summaries table returns to its single-import row
count — but the workout_events and workout_statistics tables are not touched
by the convergence stage and keep their doubled row counts. -/
theorem import_twice_convergence (b : Bundle) (i1 i2 : String) :
    ((appendRun (appendRun emptyTables i1 b) i2 b).records.length
      = 2 * (appendRun emptyTables i1 b).records.length
    ∧ (appendRun (appendRun emptyTables i1 b) i2 b).record_metadata.length
      = 2 * (appendRun emptyTables i1 b).record_metadata.length
    ∧ (appendRun (appendRun emptyTables i1 b) i2 b).workouts.length
      = 2 * (appendRun emptyTables i1 b).workouts.length
    ∧ (appendRun (appendRun emptyTables i1 b) i2 b).workout_events.length
      = 2 * (appendRun emptyTables i1 b).workout_events.length
    ∧ (appendRun (appendRun emptyTables i1 b) i2 b).workout_statistics.length
      = 2 * (appendRun emptyTables i1 b).workout_statistics.length
    ∧ (appendRun (appendRun emptyTables i1 b) i2 b).activity_summaries.length
      = 2 * (appendRun emptyTables i1 b).activity_summaries.length
    ∧ (appendRun (appendRun emptyTables i1 b) i2 b).ecg_readings.length
      = 2 * (appendRun emptyTables i1 b).ecg_readings.length
    ∧ (appendRun (appendRun emptyTables i1 b) i2 b).ecg_samples.length
      = 2 * (appendRun emptyTables i1 b).ecg_samples.length
    ∧ (appendRun (appendRun emptyTables i1 b) i2 b).route_points.length
      = 2 * (appendRun emptyTables i1 b).route_points.length)
    ∧ ((deduplicate_tables (appendRun (appendRun emptyTables i1 b) i2 b)).records
      = (deduplicate_tables (appendRun emptyTables i1 b)).records
    ∧ (deduplicate_tables (appendRun (appendRun emptyTables i1 b) i2 b)).record_metadata
      = (deduplicate_tables (appendRun emptyTables i1 b)).record_metadata
    ∧ (deduplicate_tables (appendRun (appendRun emptyTables i1 b) i2 b)).workouts
      = (deduplicate_tables (appendRun emptyTables i1 b)).workouts
    ∧ (deduplicate_tables (appendRun (appendRun emptyTables i1 b) i2 b)).ecg_readings
      = (deduplicate_tables (appendRun emptyTables i1 b)).ecg_readings
    ∧ (deduplicate_tables (appendRun (appendRun emptyTables i1 b) i2 b)).ecg_samples
      = (deduplicate_tables (appendRun emptyTables i1 b)).ecg_samples
    ∧ (deduplicate_tables (appendRun (appendRun emptyTables i1 b) i2 b)).route_points
      = (deduplicate_tables (appendRun emptyTables i1 b)).route_points
    ∧ (deduplicate_tables (appendRun (appendRun emptyTables i1 b) i2 b)).activity_summaries.length
      = (deduplicate_tables (appendRun emptyTables i1 b)).activity_summaries.length)
    ∧ ((deduplicate_tables (appendRun (appendRun emptyTables i1 b) i2 b)).workout_events.length
      = 2 * (deduplicate_tables (appendRun emptyTables i1 b)).workout_events.length
    ∧ (deduplicate_tables
          (appendRun (appendRun emptyTables i1 b) i2 b)).workout_statistics.length
      = 2 * (deduplicate_tables (appendRun emptyTables i1 b)).workout_statistics.length) := by
  have h2 : appendRun (appendRun emptyTables i1 b) i2 b
      = joinTables (appendRun emptyTables i1 b) (retagT i2 (appendRun emptyTables i1 b)) := by
    rw [appendRun_join, appendRun_retag i2 i1 b]
  rw [h2]
  set T := appendRun emptyTables i1 b with hT
  refine ⟨⟨?_, ?_, ?_, ?_, ?_, ?_, ?_, ?_, ?_⟩, ⟨?_, ?_, ?_, ?_, ?_, ?_, ?_⟩, ?_, ?_⟩
  · simp [joinTables, retagT]
    omega
  · simp [joinTables, retagT]
    omega
  · simp [joinTables, retagT]
    omega
  · simp [joinTables, retagT]
    omega
  · simp [joinTables, retagT]
    omega
  · simp [joinTables, retagT]
    omega
  · simp [joinTables, retagT]
    omega
  · simp [joinTables, retagT]
    omega
  · simp [joinTables, retagT]
    omega
  · show distinctOn _ (T.records ++ T.records.map (RecordRow.retag i2)) = distinctOn _ T.records
    exact distinctOn_append_map (fun r : RecordRow => r.record_hash)
      (RecordRow.retag i2) (fun x => rfl) T.records
  · show distinctOn _ (T.record_metadata ++ T.record_metadata) = distinctOn _ T.record_metadata
    exact distinctOn_append_self _ T.record_metadata
  · show distinctOn _ (T.workouts ++ T.workouts.map (WorkoutRow.retag i2)) = distinctOn _ T.workouts
    exact distinctOn_append_map (fun w : WorkoutRow => w.workout_hash)
      (WorkoutRow.retag i2) (fun x => rfl) T.workouts
  · show distinctOn _ (T.ecg_readings ++ T.ecg_readings.map (EcgReadingRow.retag i2))
      = distinctOn _ T.ecg_readings
    exact distinctOn_append_map (fun r : EcgReadingRow => r.ecg_hash)
      (EcgReadingRow.retag i2) (fun x => rfl) T.ecg_readings
  · show distinctOn _ (T.ecg_samples ++ T.ecg_samples) = distinctOn _ T.ecg_samples
    exact distinctOn_append_self _ T.ecg_samples
  · show distinctOn _ (T.route_points ++ T.route_points.map (RoutePointRow.retag i2))
      = distinctOn _ T.route_points
    exact distinctOn_append_map (fun p : RoutePointRow => p.point_hash)
      (RoutePointRow.retag i2) (fun x => rfl) T.route_points
  · rw [dedup_acts_length, dedup_acts_length]
    congr 1
    show ((T.activity_summaries ++ T.activity_summaries.map (ActivityRow.retag i2)).map
      (fun a => a.date_components)).toFinset = _
    rw [List.map_append, List.map_map]
    rw [show ((fun a : ActivityRow => a.date_components) ∘ ActivityRow.retag i2)
      = (fun a : ActivityRow => a.date_components) from rfl]
    rw [List.toFinset_append, Finset.union_self]
  · show (T.workout_events ++ T.workout_events).length = 2 * T.workout_events.length
    simp
    omega
  · show (T.workout_statistics ++ T.workout_statistics).length = 2 * T.workout_statistics.length
    simp
    omega

/-- C9 (counterexample): none of the four listed tables has an import-run
column in the schema that ensure_schema creates. -/
theorem import_run_column_missing :
    "import_id" ∉ tableColumns "record_metadata"
    ∧ "import_id" ∉ tableColumns "workout_events"
    ∧ "import_id" ∉ tableColumns "workout_statistics"
    ∧ "import_id" ∉ tableColumns "ecg_samples" := by
  decide

/-- C9 (amended): the records, workouts, activity_summaries, ecg_readings,
route_points and imports tables carry an import_id column and every row the
parsers emit into them is tagged with the producing run's identifier; the
record_metadata, workout_events, workout_statistics and ecg_samples tables
have no import-run column at all (their rows are attributable only through
their parent's content hash). -/
theorem import_run_id_columns (i : String) (doc : List XEvent)
    (lines : List String) (wh : Option String) (gdoc : List XEvent) :
    ("import_id" ∈ tableColumns "records"
    ∧ "import_id" ∈ tableColumns "workouts"
    ∧ "import_id" ∈ tableColumns "activity_summaries"
    ∧ "import_id" ∈ tableColumns "ecg_readings"
    ∧ "import_id" ∈ tableColumns "route_points"
    ∧ "import_id" ∈ tableColumns "imports"
    ∧ "import_id" ∉ tableColumns "record_metadata"
    ∧ "import_id" ∉ tableColumns "workout_events"
    ∧ "import_id" ∉ tableColumns "workout_statistics"
    ∧ "import_id" ∉ tableColumns "ecg_samples")
    ∧ (∀ r ∈ (import_xml i doc).records, r.import_id = i)
    ∧ (∀ w ∈ (import_xml i doc).workouts, w.import_id = i)
    ∧ (∀ a ∈ (import_xml i doc).activity_summaries, a.import_id = i)
    ∧ (∀ p ∈ import_single_gpx i wh gdoc, p.import_id = i)
    ∧ (∀ (r : EcgReadingRow) (ss : List EcgSampleRow),
        import_single_ecg i lines = some (r, ss) → r.import_id = i) := by
  refine ⟨by decide, ?_, ?_, ?_, ?_, ?_⟩
  · intro r hr
    rw [import_xml_retag i i doc] at hr
    simp only [retagX] at hr
    obtain ⟨r', -, rfl⟩ := List.mem_map.mp hr
    rfl
  · intro w hw
    rw [import_xml_retag i i doc] at hw
    simp only [retagX] at hw
    obtain ⟨w', -, rfl⟩ := List.mem_map.mp hw
    rfl
  · intro a ha
    rw [import_xml_retag i i doc] at ha
    simp only [retagX] at ha
    obtain ⟨a', -, rfl⟩ := List.mem_map.mp ha
    rfl
  · intro p hp
    rw [import_single_gpx_retag i i wh gdoc] at hp
    obtain ⟨p', -, rfl⟩ := List.mem_map.mp hp
    rfl
  · intro r ss h
    have hre := import_single_ecg_retag i i lines
    rw [h] at hre
    rw [Option.map_some'] at hre
    injection hre with h1
    exact congrArg (fun p => p.1.import_id) h1

theorem import_run_id_columns_witness :
    (⟨"2024-01-01", none, none, none, none, none, none, none, none, "imp"⟩ : ActivityRow)
      ∈ (import_xml "imp" actDoc).activity_summaries
    ∧ (⟨"2024-01-01", none, none, none, none, none, none, none, none, "imp"⟩ :
        ActivityRow).import_id = "imp" :=
  ⟨by decide,
   (import_run_id_columns "imp" actDoc [] none []).2.2.2.1
     ⟨"2024-01-01", none, none, none, none, none, none, none, none, "imp"⟩ (by decide)⟩

end AppleHealth
